import Mathlib

/-!
Verification of the session-bridge core of `claude-code-api`.

Shallow embedding of `src/session/cli-bridge.ts`, `src/session/pool.ts`,
the non-streaming response assembler (`handleNonStreaming` in the messages
route) and `src/translators/response.ts`.  The event-driven runtime is
modelled as a step function over an explicit bridge state; WebSocket
transports are socket identifiers (`Nat`) plus a set of closed sockets;
NDJSON frames are inductive types mirroring the TypeScript interfaces in
`src/session/types.ts`.
-/

namespace CCApi

/-! ## Association-list registry (models the JS `Map` used for
`CliBridge.sessions`; keys are unique in every state the code can reach). -/

/-- Lookup of the first binding of `key` (JS `Map.get`). -/
def lookupS {κ α : Type} [DecidableEq κ] : List (κ × α) → κ → Option α
  | [], _ => none
  | (k, v) :: rest, key => if k = key then some v else lookupS rest key

/-- Replace the first binding of `key`, or append a new one (JS `Map.set`). -/
def setS {κ α : Type} [DecidableEq κ] : List (κ × α) → κ → α → List (κ × α)
  | [], key, v => [(key, v)]
  | (k, w) :: rest, key, v =>
      if k = key then (key, v) :: rest else (k, w) :: setS rest key v

/-- Remove the first binding of `key` (JS `Map.delete`). -/
def delS {κ α : Type} [DecidableEq κ] : List (κ × α) → κ → List (κ × α)
  | [], _ => []
  | (k, v) :: rest, key => if k = key then rest else (k, v) :: delS rest key

/-! ## Protocol data (from `src/session/types.ts`) -/

/-- Tool input object (`Record<string, unknown>` in the source), modelled as
a key/value list; the bridge only ever passes it through unchanged. -/
abbrev ToolInput := List (String × String)

/-- Content blocks of an assistant message.  `tool_result` nested block
content is modelled as its serialized string; the bridge never inspects it. -/
inductive ContentBlock
  | text (text : String)
  | tool_use (id : String) (name : String) (input : ToolInput)
  | tool_result (tool_use_id : String) (content : String) (is_error : Option Bool)
  | thinking (thinking : String) (budget_tokens : Option Nat)
deriving DecidableEq, Repr

/-- Token usage (`usage` field of assistant and result messages). -/
structure Usage where
  input_tokens : Nat
  output_tokens : Nat
  cache_creation_input_tokens : Option Nat := none
  cache_read_input_tokens : Option Nat := none
deriving DecidableEq, Repr

/-- Inner `message` of a `CLIAssistantMessage`. -/
structure AssistantInner where
  id : String
  model : String
  content : List ContentBlock
  stop_reason : Option String
  usage : Usage
deriving DecidableEq, Repr

/-- `assistant` frame from the CLI. -/
structure CLIAssistantMessage where
  message : AssistantInner
  parent_tool_use_id : Option String := none
  session_id : String
deriving DecidableEq, Repr

/-- `result` frame from the CLI (`total_cost_usd`, a float the bridge only
forwards, is omitted). -/
structure CLIResultMessage where
  subtype : String
  is_error : Bool
  result : Option String := none
  duration_ms : Nat := 0
  duration_api_ms : Nat := 0
  num_turns : Nat := 0
  stop_reason : Option String
  usage : Usage
  session_id : String
deriving DecidableEq, Repr

/-- Inbound CLI → server frames (`CLIMessage` union in `types.ts`).
`systemOther` covers `system` frames whose subtype is not `init`;
`otherMsg` covers the unrecognized kinds that the router ignores. -/
inductive CLIMessage
  | systemInit (session_id : String) (model : String) (cwd : String)
  | systemOther (subtype : String)
  | assistantMsg (msg : CLIAssistantMessage)
  | resultMsg (msg : CLIResultMessage)
  | streamEvent (event : String) (session_id : String)
  | controlRequest (request_id : String) (subtype : String) (tool_name : String)
      (input : ToolInput) (tool_use_id : String)
  | keepAlive
  | otherMsg (kind : String)
deriving DecidableEq, Repr

/-- Outbound server → CLI frames, as built by `sendUserMessage`,
`autoApprovePermission` and `sendInterrupt` before `JSON.stringify`. -/
inductive OutFrame
  | user (content : String) (session_id : String)
  | controlResponse (subtype : String) (request_id : String) (behavior : String)
      (updatedInput : ToolInput)
  | interruptRequest (request_id : String)
deriving DecidableEq, Repr

/-- Typed notifications emitted on the bridge event bus (`BridgeEvents`). -/
inductive BridgeEvent
  | readyEv (sessionId : String)
  | assistantEv (sessionId : String) (msg : CLIAssistantMessage)
  | resultEv (sessionId : String) (msg : CLIResultMessage)
  | streamEv (sessionId : String) (event : String)
  | errorEv (sessionId : String) (message : String)
  | exitEv (sessionId : String) (code : Option Int)
deriving DecidableEq, Repr

/-- Permission policy (`PermissionMode`); `defaultMode` models `"default"`. -/
inductive PermissionMode
  | bypassPermissions
  | acceptEdits
  | defaultMode
deriving DecidableEq, Repr

/-- Lifecycle state of a session (`SessionInfo.state`). -/
inductive SessionState
  | starting
  | connected
  | ready
  | busy
  | exited
deriving DecidableEq, Repr

/-- `SessionInfo` record. -/
structure SessionInfo where
  sessionId : String
  cliSessionId : Option String := none
  model : String
  permissionMode : PermissionMode
  state : SessionState
  cwd : String
  createdAt : Int
  lastUsedAt : Int
deriving DecidableEq, Repr

/-- `ManagedSession` record of the bridge.  `cliSocket` is the attached
socket id; `processSpawned` models a non-null `process` handle and
`processAlive` whether that process has not yet exited; `readyResolved`
models a resolved `readyPromise`. -/
structure ManagedSession where
  info : SessionInfo
  cliSocket : Option Nat := none
  processSpawned : Bool := false
  processAlive : Bool := false
  pendingMessages : List OutFrame := []
  readyResolved : Bool := false
  apiKey : Option String := none
deriving DecidableEq, Repr

/-- Whole-bridge state: the session registry, which socket is attached to
which session (the `ws.on` handlers bound inside `handleConnection`), and
which sockets have closed (`readyState !== OPEN`). -/
structure BridgeState where
  sessions : List (String × ManagedSession) := []
  attachments : List (Nat × String) := []
  closedSockets : List Nat := []
  wsPort : Nat := 3458
  sessionTimeout : Int := 1800000
deriving DecidableEq, Repr

/-- Bridge with no sessions (state right after the constructor). -/
def emptyBridge : BridgeState := {}

/-! ## Transport endpoint path matching (`handleConnection`, line 66) -/

/-- Character class of the path regex `[a-f0-9-]`. -/
def pathChar (c : Char) : Bool :=
  ('a' ≤ c && c ≤ 'f') || ('0' ≤ c && c ≤ '9') || c = '-'

/-- Characters of the fixed path prefix `/ws/cli/`. -/
def wsPathChars : List Char := ['/', 'w', 's', '/', 'c', 'l', 'i', '/']

/-- Strip a literal leading character sequence, or fail. -/
def stripLeading : List Char → List Char → Option (List Char)
  | [], rest => some rest
  | _ :: _, [] => none
  | p :: ps, c :: cs => if c = p then stripLeading ps cs else none

/-- Session id extracted by `url.match(/^\/ws\/cli\/([a-f0-9-]+)$/)`. -/
def pathSessionId (url : String) : Option String :=
  match stripLeading wsPathChars url.data with
  | none => none
  | some rest =>
      if rest.isEmpty then none
      else if rest.all pathChar then some (String.mk rest) else none

/-! ## Outbound queue (`sendToCLI`, lines 346-352) -/

/-- Whether the session's transport exists and is writable
(`managed.cliSocket && managed.cliSocket.readyState === WebSocket.OPEN`). -/
def transportWritable (closed : List Nat) (managed : ManagedSession) : Bool :=
  match managed.cliSocket with
  | none => false
  | some sock => decide (sock ∉ closed)

/-- `CliBridge.sendToCLI`: write the frame to an open transport, otherwise
append it to the session's outbound queue.  Returns the updated session and
the writes performed (socket id, frame). -/
def sendToCLI (closed : List Nat) (managed : ManagedSession) (frame : OutFrame) :
    ManagedSession × List (Nat × OutFrame) :=
  match managed.cliSocket with
  | none => ({ managed with pendingMessages := managed.pendingMessages ++ [frame] }, [])
  | some sock =>
      if sock ∈ closed then
        ({ managed with pendingMessages := managed.pendingMessages ++ [frame] }, [])
      else (managed, [(sock, frame)])

/-- Send a whole sequence of frames through `sendToCLI`, accumulating writes. -/
def sendAllToCLI (closed : List Nat) (managed : ManagedSession) :
    List OutFrame → ManagedSession × List (Nat × OutFrame)
  | [] => (managed, [])
  | frame :: frames =>
      let r := sendToCLI closed managed frame
      let rest := sendAllToCLI closed r.1 frames
      (rest.1, r.2 ++ rest.2)

/-- Frames handed to the CLI by one operation: direct socket writes plus
frames newly appended to the outbound queue. -/
def frameOutputs (before after : ManagedSession) (writes : List (Nat × OutFrame)) :
    List OutFrame :=
  writes.map Prod.snd ++ after.pendingMessages.drop before.pendingMessages.length

/-! ## Message router (`routeMessage` / `autoApprovePermission`) -/

/-- `CliBridge.autoApprovePermission`: synthesize the `control_response`
that echoes the request id and the proposed input, and send it. -/
def autoApprovePermission (closed : List Nat) (managed : ManagedSession)
    (request_id : String) (input : ToolInput) :
    ManagedSession × List (Nat × OutFrame) :=
  sendToCLI closed managed (OutFrame.controlResponse "success" request_id "allow" input)

/-- `CliBridge.routeMessage`: dispatch one parsed frame.  Returns the updated
session, the socket writes, and the emitted bridge events. -/
def routeMessage (closed : List Nat) (now : Int) (sessionId : String)
    (managed : ManagedSession) (msg : CLIMessage) :
    ManagedSession × List (Nat × OutFrame) × List BridgeEvent :=
  match msg with
  | CLIMessage.systemInit cliSid _ _ =>
      ({ managed with
          info := { managed.info with cliSessionId := some cliSid, state := SessionState.ready },
          readyResolved := true },
        [], [BridgeEvent.readyEv sessionId])
  | CLIMessage.systemOther _ => (managed, [], [])
  | CLIMessage.assistantMsg a => (managed, [], [BridgeEvent.assistantEv sessionId a])
  | CLIMessage.resultMsg r =>
      ({ managed with
          info := { managed.info with state := SessionState.ready, lastUsedAt := now } },
        [], [BridgeEvent.resultEv sessionId r])
  | CLIMessage.streamEvent ev _ => (managed, [], [BridgeEvent.streamEv sessionId ev])
  | CLIMessage.controlRequest request_id subtype _ input _ =>
      if subtype = "can_use_tool" then
        let r := autoApprovePermission closed managed request_id input
        (r.1, r.2, [])
      else (managed, [], [])
  | CLIMessage.keepAlive => (managed, [], [])
  | CLIMessage.otherMsg _ => (managed, [], [])

/-! ## Transport endpoint (`handleConnection`, lines 64-109) -/

/-- Result of an inbound connection: refused with a close code, or attached
with the queued frames flushed to the new socket. -/
inductive ConnResult
  | closed (code : Nat) (reason : String)
  | attached (writes : List (Nat × OutFrame))
deriving DecidableEq, Repr

/-- `CliBridge.handleConnection`: match the path, look up the session,
attach the socket, advance the state to `connected`, flush the outbound
queue in order and clear it. -/
def handleConnection (st : BridgeState) (sock : Nat) (url : String) :
    BridgeState × ConnResult :=
  match pathSessionId url with
  | none => (st, ConnResult.closed 4000 "Invalid path")
  | some sessionId =>
      match lookupS st.sessions sessionId with
      | none => (st, ConnResult.closed 4001 "Unknown session")
      | some managed =>
          let writes := managed.pendingMessages.map (fun f => (sock, f))
          let managed' := { managed with
            cliSocket := some sock,
            info := { managed.info with state := SessionState.connected },
            pendingMessages := [] }
          ({ st with
              sessions := setS st.sessions sessionId managed',
              attachments := (sock, sessionId) :: st.attachments },
            ConnResult.attached writes)

/-! ## Spawning (`spawnSession`, lines 168-204) -/

/-- `spawnSession` options (`cwd` defaults to `process.cwd()`, modelled as
`"."`). -/
structure SpawnOptions where
  model : Option String := none
  permissionMode : Option PermissionMode := none
  cwd : Option String := none
  sessionId : Option String := none
  apiKey : Option String := none
deriving DecidableEq, Repr

/-- Fresh `ManagedSession` record as built inside `spawnSession` (state
`starting`, empty queue, no transport, live process after `spawnCLI`). -/
def spawnRecord (options : SpawnOptions) (sessionId : String) (now : Int) : ManagedSession :=
  { info := {
      sessionId := sessionId,
      cliSessionId := none,
      model := options.model.getD "claude-sonnet-4-5-20250929",
      permissionMode := options.permissionMode.getD PermissionMode.acceptEdits,
      state := SessionState.starting,
      cwd := options.cwd.getD ".",
      createdAt := now,
      lastUsedAt := now },
    cliSocket := none,
    processSpawned := true,
    processAlive := true,
    pendingMessages := [],
    readyResolved := false,
    apiKey := options.apiKey }

/-- `CliBridge.spawnSession`: register a fresh `starting` record under the
supplied id (verbatim) or the generated `freshId` (models `randomUUID()`),
and launch the CLI process (`spawnCLI`).  Returns the new state and the id. -/
def spawnSession (st : BridgeState) (options : SpawnOptions) (freshId : String)
    (now : Int) : BridgeState × String :=
  let sessionId := options.sessionId.getD freshId
  ({ st with sessions := setS st.sessions sessionId (spawnRecord options sessionId now) },
   sessionId)

/-! ## User messages, interrupts (`sendUserMessage`, `sendInterrupt`) -/

/-- `CliBridge.sendUserMessage`: mark the session busy, stamp activity,
build the `user` frame and send it.  On an unknown id the method throws;
the bridge state is unchanged in that case. -/
def sendUserMessage (st : BridgeState) (sessionId : String) (content : String)
    (now : Int) : BridgeState × List (Nat × OutFrame) :=
  match lookupS st.sessions sessionId with
  | none => (st, [])
  | some managed =>
      let m1 := { managed with
        info := { managed.info with state := SessionState.busy, lastUsedAt := now } }
      let frame := OutFrame.user content (m1.info.cliSessionId.getD "")
      let r := sendToCLI st.closedSockets m1 frame
      ({ st with sessions := setS st.sessions sessionId r.1 }, r.2)

/-- `CliBridge.sendInterrupt`: send an `interrupt` control request; no-op on
an unknown id. -/
def sendInterrupt (st : BridgeState) (sessionId : String) (request_id : String) :
    BridgeState × List (Nat × OutFrame) :=
  match lookupS st.sessions sessionId with
  | none => (st, [])
  | some managed =>
      let r := sendToCLI st.closedSockets managed (OutFrame.interruptRequest request_id)
      ({ st with sessions := setS st.sessions sessionId r.1 }, r.2)

/-! ## Termination (`killSession`, lines 323-344) -/

/-- Grace period of `killSession` before the forced `SIGKILL` (5000 ms). -/
def killGraceMs : Nat := 5000

/-- Registry effect of `killSession`: close the attached socket (if any)
and delete the record, regardless of its prior state. -/
def killSessionState (st : BridgeState) (sessionId : String) : BridgeState :=
  match lookupS st.sessions sessionId with
  | none => st
  | some managed =>
      let closed' := match managed.cliSocket with
        | some sock => sock :: st.closedSockets
        | none => st.closedSockets
      { st with sessions := delS st.sessions sessionId, closedSockets := closed' }

/-- How the session's process reacts to the graceful `SIGTERM`. -/
inductive ProcBehavior
  | exitsAfter (ms : Nat)
  | ignores
  | alreadyExited
deriving DecidableEq, Repr

/-- Observable timing of one `killSession` call. -/
structure KillResult where
  found : Bool
  termSignalSent : Bool
  forceKilled : Bool
  elapsedMs : Nat
deriving DecidableEq, Repr

/-- `CliBridge.killSession` with its timing: no-op on an unknown id;
otherwise `SIGTERM`, wait for the process's own exit up to `killGraceMs`,
`SIGKILL` when the grace period elapses (also when the process had already
exited, since its `exit` event fired before the listener was installed),
then remove the record.  The call always completes. -/
def killSessionTimed (st : BridgeState) (sessionId : String) (b : ProcBehavior) :
    BridgeState × KillResult :=
  match lookupS st.sessions sessionId with
  | none => (st, { found := false, termSignalSent := false, forceKilled := false, elapsedMs := 0 })
  | some managed =>
      let r : KillResult :=
        if managed.processSpawned then
          match b with
          | ProcBehavior.exitsAfter ms =>
              if ms < killGraceMs then
                { found := true, termSignalSent := true, forceKilled := false, elapsedMs := ms }
              else
                { found := true, termSignalSent := true, forceKilled := true, elapsedMs := killGraceMs }
          | ProcBehavior.ignores =>
              { found := true, termSignalSent := true, forceKilled := true, elapsedMs := killGraceMs }
          | ProcBehavior.alreadyExited =>
              { found := true, termSignalSent := true, forceKilled := true, elapsedMs := killGraceMs }
        else { found := true, termSignalSent := false, forceKilled := false, elapsedMs := 0 }
      (killSessionState st sessionId, r)

/-! ## Idle reaper (`reapIdleSessions`, lines 354-366) -/

/-- Whether a reaper pass keeps the entry: not `exited` and not idle past
the threshold. -/
def reapKeeps (now timeout : Int) (p : String × ManagedSession) : Bool :=
  if p.2.info.state = SessionState.exited then false
  else decide (now - p.2.info.lastUsedAt ≤ timeout)

/-- Whether a reaper pass calls `killSession` on the entry: not `exited`
and idle strictly past the threshold. -/
def reapKills (now timeout : Int) (p : String × ManagedSession) : Bool :=
  if p.2.info.state = SessionState.exited then false
  else decide (now - p.2.info.lastUsedAt > timeout)

/-- `CliBridge.reapIdleSessions`: remove every `exited` record; call
`kill` on every other record idle strictly past the threshold.  The
asynchronous completion of those kills (which delete the records) is
modelled as part of the pass; the kill targets are returned by id. -/
def reapIdleSessions (now timeout : Int) (sessions : List (String × ManagedSession)) :
    List (String × ManagedSession) × List String :=
  (sessions.filter (reapKeeps now timeout),
   (sessions.filter (reapKills now timeout)).map Prod.fst)

/-! ## Operational semantics: one event-loop callback at a time -/

/-- One scheduled callback of the single-threaded runtime. -/
inductive Op
  | spawnOp (options : SpawnOptions) (freshId : String) (now : Int)
  | connectOp (sock : Nat) (url : String)
  | socketCloseOp (sock : Nat)
  | messageOp (sock : Nat) (now : Int) (msg : CLIMessage)
  | sendUserOp (sessionId : String) (content : String) (now : Int)
  | interruptOp (sessionId : String) (request_id : String)
  | exitOp (sessionId : String) (code : Option Int)
  | killOp (sessionId : String)
  | reapOp (now : Int)
deriving DecidableEq, Repr

/-- Step the bridge by one callback; yields the new state, the socket
writes performed and the events emitted.  Frames (`messageOp`) are routed
only for sockets that successfully attached and have not closed, since the
`message` listener is installed inside `handleConnection`. -/
def step (st : BridgeState) (op : Op) : BridgeState × List (Nat × OutFrame) × List BridgeEvent :=
  match op with
  | Op.spawnOp options freshId now => ((spawnSession st options freshId now).1, [], [])
  | Op.connectOp sock url =>
      let r := handleConnection st sock url
      (r.1, (match r.2 with | ConnResult.attached ws => ws | ConnResult.closed _ _ => []), [])
  | Op.socketCloseOp sock =>
      let st1 := { st with closedSockets := sock :: st.closedSockets }
      (match lookupS st.attachments sock with
       | some sessionId =>
           match lookupS st.sessions sessionId with
           | some managed =>
               { st1 with sessions := setS st1.sessions sessionId { managed with cliSocket := none } }
           | none => st1
       | none => st1, [], [])
  | Op.messageOp sock now msg =>
      if sock ∈ st.closedSockets then (st, [], [])
      else
        match lookupS st.attachments sock with
        | some sessionId =>
            (match lookupS st.sessions sessionId with
             | some managed =>
                 let r := routeMessage st.closedSockets now sessionId managed msg
                 ({ st with sessions := setS st.sessions sessionId r.1 }, r.2.1, r.2.2)
             | none => (st, [], []))
        | none => (st, [], [])
  | Op.sendUserOp sessionId content now =>
      let r := sendUserMessage st sessionId content now
      (r.1, r.2, [])
  | Op.interruptOp sessionId request_id =>
      let r := sendInterrupt st sessionId request_id
      (r.1, r.2, [])
  | Op.exitOp sessionId code =>
      (match lookupS st.sessions sessionId with
       | none => st
       | some managed =>
           let managed' := { managed with
             info := { managed.info with state := SessionState.exited },
             processAlive := false }
           { st with sessions := setS st.sessions sessionId managed' },
        [], [BridgeEvent.exitEv sessionId code])
  | Op.killOp sessionId => (killSessionState st sessionId, [], [])
  | Op.reapOp now =>
      ({ st with sessions := (reapIdleSessions now st.sessionTimeout st.sessions).1 }, [], [])

/-- Run a sequence of callbacks, keeping only the final state. -/
def runState (st : BridgeState) : List Op → BridgeState
  | [] => st
  | op :: rest => runState (step st op).1 rest

/-- Run a sequence of callbacks, collecting all socket writes in order. -/
def runWrites (st : BridgeState) : List Op → List (Nat × OutFrame)
  | [] => []
  | op :: rest => (step st op).2.1 ++ runWrites (step st op).1 rest

/-- All states passed through while running a sequence of callbacks,
the initial one included. -/
def trajectory (st : BridgeState) : List Op → List BridgeState
  | [] => [st]
  | op :: rest => st :: trajectory (step st op).1 rest

/-- Lifecycle state of a session as observed from outside. -/
def stateOf (st : BridgeState) (sessionId : String) : Option SessionState :=
  (lookupS st.sessions sessionId).map (fun m => m.info.state)

/-- Observed lifecycle states of one session along a run. -/
def stateHistory (st : BridgeState) (ops : List Op) (sessionId : String) :
    List (Option SessionState) :=
  (trajectory st ops).map (fun s => stateOf s sessionId)

/-! ## Readiness wait and the session pool (`waitForReady`, `pool.ts`) -/

/-- Default timeout of `CliBridge.waitForReady` (30 seconds). -/
def waitForReadyTimeoutMs : Nat := 30000

/-- Whether the session's `readyPromise` is resolved in a given state. -/
def readyResolvedAt (st : BridgeState) (sessionId : String) : Bool :=
  match lookupS st.sessions sessionId with
  | some managed => managed.readyResolved
  | none => false

/-- `CliBridge.waitForReady`: succeeds when the session is already `ready`
at the call, or its `readyPromise` resolves at some point while the
callbacks that fit in the timeout window (`duringWait`) run; otherwise the
timeout rejection wins. -/
def waitForReadySucceeds (st : BridgeState) (sessionId : String)
    (duringWait : List Op) : Bool :=
  match lookupS st.sessions sessionId with
  | none => false
  | some managed =>
      decide (managed.info.state = SessionState.ready) ||
        (trajectory st duringWait).any (fun s => readyResolvedAt s sessionId)

/-- Outcome of `SessionPool.getOrCreate` as seen by the caller. -/
inductive GOCOutcome
  | okExisting (sessionId : String)
  | okCreated (sessionId : String)
  | timeoutErr (sessionId : String)
deriving DecidableEq, Repr

/-- Creation path of `getOrCreate`: spawn, then wait for readiness; on
timeout the error propagates but the spawned record is left registered.
The returned `Nat` counts process launches. -/
def getOrCreateNew (st : BridgeState) (options : SpawnOptions) (freshId : String)
    (now : Int) (duringWait : List Op) : GOCOutcome × BridgeState × Nat :=
  let spawned := spawnSession st options freshId now
  let st2 := runState spawned.1 duringWait
  if waitForReadySucceeds spawned.1 spawned.2 duringWait then
    (GOCOutcome.okCreated spawned.2, st2, 1)
  else (GOCOutcome.timeoutErr spawned.2, st2, 1)

/-- `SessionPool.getOrCreate`: return a supplied live non-exited session
unchanged (`isNew = false`, zero launches), otherwise create.  The guard
`options.sessionId && this.bridge.hasSession(...)` uses JS truthiness, so a
supplied empty-string id skips the existing-session branch (while
`spawnSession`'s `?? randomUUID()` is nullish and keeps `""`). -/
def getOrCreate (st : BridgeState) (options : SpawnOptions) (freshId : String)
    (now : Int) (duringWait : List Op) : GOCOutcome × BridgeState × Nat :=
  match options.sessionId with
  | some sessionId =>
      if sessionId = "" then getOrCreateNew st options freshId now duringWait
      else
        (match lookupS st.sessions sessionId with
         | some managed =>
             if managed.info.state = SessionState.exited then
               getOrCreateNew st options freshId now duringWait
             else (GOCOutcome.okExisting sessionId, st, 0)
         | none => getOrCreateNew st options freshId now duringWait)
  | none => getOrCreateNew st options freshId now duringWait

/-! ## Response assembly (`buildAnthropicResponse`, `handleNonStreaming`) -/

/-- Aggregate Anthropic Messages API response. -/
structure AnthropicResponse where
  id : String
  type : String
  role : String
  content : List ContentBlock
  model : String
  stop_reason : Option String
  stop_sequence : Option String
  usage : Usage
deriving DecidableEq, Repr

/-- JS `a || b` on nullable strings: the empty string is falsy. -/
def jsOrStr (a b : Option String) : Option String :=
  match a with
  | some s => if s = "" then b else some s
  | none => b

/-- `mapStopReason` from `translators/response.ts`; a falsy reason maps to
null, an unknown reason to `end_turn`. -/
def mapStopReason (reason : Option String) : Option String :=
  match reason with
  | none => none
  | some r =>
      if r = "" then none
      else if r = "end_turn" then some "end_turn"
      else if r = "max_tokens" then some "max_tokens"
      else if r = "stop_sequence" then some "stop_sequence"
      else if r = "tool_use" then some "tool_use"
      else some "end_turn"

/-- `buildAnthropicResponse`: combine the assistant frame and the result
frame into one aggregate response; `freshId` models the random id used when
the assistant message id is falsy. -/
def buildAnthropicResponse (assistant : CLIAssistantMessage)
    (result : CLIResultMessage) (freshId : String) : AnthropicResponse :=
  { id := if assistant.message.id = "" then "msg_" ++ freshId else assistant.message.id,
    type := "message",
    role := "assistant",
    content := assistant.message.content,
    model := assistant.message.model,
    stop_reason := mapStopReason (jsOrStr result.stop_reason assistant.message.stop_reason),
    stop_sequence := none,
    usage := {
      input_tokens := result.usage.input_tokens,
      output_tokens := result.usage.output_tokens,
      cache_creation_input_tokens := result.usage.cache_creation_input_tokens,
      cache_read_input_tokens := result.usage.cache_read_input_tokens } }

/-- Outcome of the non-streaming turn handler. -/
inductive NSOutcome
  | okResp (resp : AnthropicResponse)
  | errNoResponse
  | errProcess (message : String)
  | errExited (code : Option Int)
  | timedOut
deriving DecidableEq, Repr

/-- `handleNonStreaming`: consume bridge events in order, remembering the
last `assistant` for this session; the first matching `result`, `error` or
`exit` resolves the call (listeners are then removed); the list holds the
events arriving within the 5-minute window, so its end is the timeout. -/
def handleNonStreaming (sessionId : String) (freshId : String) :
    List BridgeEvent → Option CLIAssistantMessage → NSOutcome
  | [], _ => NSOutcome.timedOut
  | ev :: rest, lastAssistant =>
      match ev with
      | BridgeEvent.assistantEv sid a =>
          if sid = sessionId then handleNonStreaming sessionId freshId rest (some a)
          else handleNonStreaming sessionId freshId rest lastAssistant
      | BridgeEvent.resultEv sid r =>
          if sid = sessionId then
            match lastAssistant with
            | some a => NSOutcome.okResp (buildAnthropicResponse a r freshId)
            | none => NSOutcome.errNoResponse
          else handleNonStreaming sessionId freshId rest lastAssistant
      | BridgeEvent.errorEv sid m =>
          if sid = sessionId then NSOutcome.errProcess m
          else handleNonStreaming sessionId freshId rest lastAssistant
      | BridgeEvent.exitEv sid c =>
          if sid = sessionId then NSOutcome.errExited c
          else handleNonStreaming sessionId freshId rest lastAssistant
      | BridgeEvent.readyEv _ => handleNonStreaming sessionId freshId rest lastAssistant
      | BridgeEvent.streamEv _ _ => handleNonStreaming sessionId freshId rest lastAssistant

/-! ## Spec-side predicates (for stating the claims) -/

/-- Edge relation of the state graph in spec §4.3:
`starting → connected → ready → busy → ready → …` plus `* → exited`. -/
def specGraphEdge : SessionState → SessionState → Bool
  | SessionState.starting, SessionState.connected => true
  | SessionState.connected, SessionState.ready => true
  | SessionState.ready, SessionState.busy => true
  | SessionState.busy, SessionState.ready => true
  | _, SessionState.exited => true
  | _, _ => false

/-- One observed transition is allowed by the spec graph (staying put,
creation and removal are unconstrained). -/
def specAdjOk : Option SessionState → Option SessionState → Bool
  | some s, some t => decide (s = t) || specGraphEdge s t
  | _, _ => true

/-- A whole observed state history follows the spec graph. -/
def followsSpecGraph : List (Option SessionState) → Bool
  | a :: b :: rest => specAdjOk a b && followsSpecGraph (b :: rest)
  | _ => true

/-- States an operation can force a given session into (besides leaving it
unchanged), as the code actually behaves. -/
def opTargets (op : Op) (sessionId : String) : List (Option SessionState) :=
  match op with
  | Op.spawnOp options freshId _ =>
      if options.sessionId.getD freshId = sessionId then [some SessionState.starting] else []
  | Op.connectOp _ _ => [some SessionState.connected]
  | Op.messageOp _ _ _ => [some SessionState.ready]
  | Op.sendUserOp sid _ _ => if sid = sessionId then [some SessionState.busy] else []
  | Op.exitOp sid _ => if sid = sessionId then [some SessionState.exited] else []
  | Op.killOp sid => if sid = sessionId then [none] else []
  | Op.reapOp _ => [none]
  | Op.socketCloseOp _ => []
  | Op.interruptOp _ _ => []

/-! ## Registry lemmas -/

theorem lookupS_setS_self {κ α : Type} [DecidableEq κ] (l : List (κ × α)) (k : κ) (v : α) :
    lookupS (setS l k v) k = some v := by
  induction l with
  | nil => simp [setS, lookupS]
  | cons p rest ih =>
      obtain ⟨k₁, v₁⟩ := p
      by_cases h : k₁ = k
      · simp [setS, h, lookupS]
      · simp [setS, h, lookupS, ih]

theorem lookupS_setS_ne {κ α : Type} [DecidableEq κ] (l : List (κ × α)) (k k' : κ) (v : α)
    (h : k' ≠ k) : lookupS (setS l k v) k' = lookupS l k' := by
  induction l with
  | nil =>
      simp only [setS, lookupS]
      rw [if_neg (fun hh => h hh.symm)]
  | cons p rest ih =>
      obtain ⟨k₁, v₁⟩ := p
      by_cases h1 : k₁ = k
      · subst h1
        simp only [setS, if_pos rfl, lookupS]
        rw [if_neg (fun hh => h hh.symm), if_neg (fun hh => h hh.symm)]
      · simp [setS, h1, lookupS, ih]

theorem lookupS_mem {κ α : Type} [DecidableEq κ] {l : List (κ × α)} {k : κ} {v : α}
    (h : lookupS l k = some v) : (k, v) ∈ l := by
  induction l with
  | nil => simp [lookupS] at h
  | cons p rest ih =>
      obtain ⟨k₁, v₁⟩ := p
      by_cases h1 : k₁ = k
      · subst h1
        simp [lookupS] at h
        simp [h]
      · simp [lookupS, h1] at h
        exact List.mem_cons_of_mem _ (ih h)

theorem mem_setS {κ α : Type} [DecidableEq κ] {l : List (κ × α)} {k k' : κ} {v v' : α}
    (h : (k', v') ∈ setS l k v) : (k', v') ∈ l ∨ (k' = k ∧ v' = v) := by
  induction l with
  | nil =>
      simp [setS] at h
      right
      exact h
  | cons p rest ih =>
      obtain ⟨k₁, v₁⟩ := p
      by_cases h1 : k₁ = k
      · subst h1
        simp only [setS, if_pos rfl] at h
        rcases List.mem_cons.mp h with h2 | h2
        · right
          exact ⟨congrArg Prod.fst h2, congrArg Prod.snd h2⟩
        · left
          exact List.mem_cons_of_mem _ h2
      · simp only [setS, if_neg h1] at h
        rcases List.mem_cons.mp h with h2 | h2
        · left
          simp [h2]
        · rcases ih h2 with h3 | h3
          · left
            exact List.mem_cons_of_mem _ h3
          · right
            exact h3

theorem mem_of_mem_delS {κ α : Type} [DecidableEq κ] {l : List (κ × α)} {k : κ} {x : κ × α}
    (h : x ∈ delS l k) : x ∈ l := by
  induction l with
  | nil => simp [delS] at h
  | cons p rest ih =>
      obtain ⟨k₁, v₁⟩ := p
      by_cases h1 : k₁ = k
      · simp only [delS, if_pos h1] at h
        exact List.mem_cons_of_mem _ h
      · simp only [delS, if_neg h1] at h
        rcases List.mem_cons.mp h with h2 | h2
        · simp [h2]
        · exact List.mem_cons_of_mem _ (ih h2)

theorem lookupS_eq_none_of_not_mem {κ α : Type} [DecidableEq κ] {l : List (κ × α)} {k : κ}
    (h : k ∉ l.map Prod.fst) : lookupS l k = none := by
  induction l with
  | nil => rfl
  | cons p rest ih =>
      obtain ⟨k₁, v₁⟩ := p
      simp only [List.map_cons, List.mem_cons, not_or] at h
      rw [lookupS, if_neg (fun hh => h.1 hh.symm)]
      exact ih h.2

theorem keys_filter_subset {κ α : Type} (p : κ × α → Bool) (l : List (κ × α)) (k : κ)
    (h : k ∈ (l.filter p).map Prod.fst) : k ∈ l.map Prod.fst := by
  rcases List.mem_map.mp h with ⟨x, hx, hfst⟩
  exact List.mem_map.mpr ⟨x, List.mem_of_mem_filter hx, hfst⟩

theorem lookupS_delS_self {κ α : Type} [DecidableEq κ] {l : List (κ × α)} {k : κ}
    (h : (l.map Prod.fst).Nodup) : lookupS (delS l k) k = none := by
  induction l with
  | nil => rfl
  | cons p rest ih =>
      obtain ⟨k₁, v₁⟩ := p
      simp only [List.map_cons, List.nodup_cons] at h
      by_cases h1 : k₁ = k
      · subst h1
        simp only [delS, if_pos rfl]
        exact lookupS_eq_none_of_not_mem h.1
      · simp only [delS, if_neg h1]
        rw [lookupS, if_neg h1]
        exact ih h.2

theorem lookupS_cons {κ α : Type} [DecidableEq κ] (k₁ : κ) (v₁ : α) (rest : List (κ × α))
    (key : κ) :
    lookupS ((k₁, v₁) :: rest) key = if k₁ = key then some v₁ else lookupS rest key := rfl

theorem delS_cons {κ α : Type} [DecidableEq κ] (k₁ : κ) (v₁ : α) (rest : List (κ × α))
    (key : κ) :
    delS ((k₁, v₁) :: rest) key =
      if k₁ = key then rest else (k₁, v₁) :: delS rest key := rfl

theorem setS_cons {κ α : Type} [DecidableEq κ] (k₁ : κ) (v₁ : α) (rest : List (κ × α))
    (key : κ) (v : α) :
    setS ((k₁, v₁) :: rest) key v =
      if k₁ = key then (key, v) :: rest else (k₁, v₁) :: setS rest key v := rfl

theorem lookupS_delS_ne {κ α : Type} [DecidableEq κ] (l : List (κ × α)) (k k' : κ)
    (h : k' ≠ k) : lookupS (delS l k) k' = lookupS l k' := by
  induction l with
  | nil => rfl
  | cons p rest ih =>
      obtain ⟨k₁, v₁⟩ := p
      by_cases h1 : k₁ = k
      · rw [delS_cons, if_pos h1, lookupS_cons,
          if_neg (fun hh : k₁ = k' => h (hh.symm.trans h1))]
      · rw [delS_cons, if_neg h1, lookupS_cons, lookupS_cons]
        by_cases h2 : k₁ = k'
        · rw [if_pos h2, if_pos h2]
        · rw [if_neg h2, if_neg h2]
          exact ih

theorem mem_unique_of_nodup {κ α : Type} [DecidableEq κ] {l : List (κ × α)} {k : κ} {a b : α}
    (h : (l.map Prod.fst).Nodup) (ha : (k, a) ∈ l) (hb : (k, b) ∈ l) : a = b := by
  induction l with
  | nil => simp at ha
  | cons p rest ih =>
      obtain ⟨k₁, v₁⟩ := p
      simp only [List.map_cons, List.nodup_cons] at h
      rcases List.mem_cons.mp ha with ha1 | ha1 <;> rcases List.mem_cons.mp hb with hb1 | hb1
      · rw [show a = v₁ from congrArg Prod.snd ha1, show b = v₁ from congrArg Prod.snd hb1]
      · exfalso
        apply h.1
        have hk : k₁ = k := (congrArg Prod.fst ha1).symm
        subst hk
        exact List.mem_map.mpr ⟨(k₁, b), hb1, rfl⟩
      · exfalso
        apply h.1
        have hk : k₁ = k := (congrArg Prod.fst hb1).symm
        subst hk
        exact List.mem_map.mpr ⟨(k₁, a), ha1, rfl⟩
      · exact ih h.2 ha1 hb1

theorem lookupS_filter {κ α : Type} [DecidableEq κ] (p : κ × α → Bool) {l : List (κ × α)}
    (k : κ) (h : (l.map Prod.fst).Nodup) :
    lookupS (l.filter p) k =
      (lookupS l k).bind (fun v => if p (k, v) then some v else none) := by
  induction l with
  | nil => rfl
  | cons q rest ih =>
      obtain ⟨k₁, v₁⟩ := q
      simp only [List.map_cons, List.nodup_cons] at h
      by_cases h1 : k₁ = k
      · subst h1
        cases hp : p (k₁, v₁) with
        | true =>
            rw [List.filter_cons]
            simp [lookupS, hp]
        | false =>
            rw [List.filter_cons]
            simp only [hp, Bool.false_eq_true, if_false]
            rw [lookupS_eq_none_of_not_mem (fun hm => h.1 (keys_filter_subset p rest k₁ hm))]
            simp [lookupS, hp]
      · rw [List.filter_cons]
        rw [show lookupS ((k₁, v₁) :: rest) k = lookupS rest k from by rw [lookupS, if_neg h1]]
        cases hp : p (k₁, v₁) with
        | true =>
            simp only [hp, if_true]
            rw [lookupS, if_neg h1]
            exact ih h.2
        | false =>
            simp only [hp, Bool.false_eq_true, if_false]
            exact ih h.2

/-! ## Outbound-queue lemmas -/

theorem sendToCLI_preserves (closed : List Nat) (m : ManagedSession) (f : OutFrame) :
    (sendToCLI closed m f).1.info = m.info ∧
    (sendToCLI closed m f).1.cliSocket = m.cliSocket ∧
    (sendToCLI closed m f).1.processSpawned = m.processSpawned ∧
    (sendToCLI closed m f).1.processAlive = m.processAlive ∧
    (sendToCLI closed m f).1.readyResolved = m.readyResolved := by
  cases hs : m.cliSocket with
  | none => simp [sendToCLI, hs]
  | some sock =>
      by_cases h : sock ∈ closed <;> simp [sendToCLI, hs, h]

theorem sendToCLI_not_writable (closed : List Nat) (m : ManagedSession) (f : OutFrame)
    (h : transportWritable closed m = false) :
    sendToCLI closed m f = ({ m with pendingMessages := m.pendingMessages ++ [f] }, []) := by
  cases hs : m.cliSocket with
  | none => simp [sendToCLI, hs]
  | some sock =>
      have hmem : sock ∈ closed := by
        by_contra hc
        simp [transportWritable, hs, hc] at h
      simp [sendToCLI, hs, hmem]

theorem sendAllToCLI_not_writable (closed : List Nat) (m : ManagedSession)
    (fs : List OutFrame) (h : transportWritable closed m = false) :
    sendAllToCLI closed m fs = ({ m with pendingMessages := m.pendingMessages ++ fs }, []) := by
  induction fs generalizing m with
  | nil => simp [sendAllToCLI]
  | cons f fs ih =>
      have hstep := sendToCLI_not_writable closed m f h
      have h' : transportWritable closed
          ({ m with pendingMessages := m.pendingMessages ++ [f] }) = false := h
      simp only [sendAllToCLI, hstep, ih _ h']
      simp [List.append_assoc]

/-! ## Path-matching lemmas -/

theorem stripLeading_append (p cs : List Char) : stripLeading p (p ++ cs) = some cs := by
  induction p with
  | nil => rfl
  | cons c ps ih => simp [stripLeading, ih]

theorem pathSessionId_valid (sid : String) (h1 : sid.data ≠ [])
    (h2 : sid.data.all pathChar = true) :
    pathSessionId ("/ws/cli/" ++ sid) = some sid := by
  obtain ⟨l⟩ := sid
  have hdata : (("/ws/cli/" : String) ++ String.mk l).data = wsPathChars ++ l := rfl
  unfold pathSessionId
  rw [hdata, stripLeading_append]
  have hne : l.isEmpty = false := by
    cases l with
    | nil => exact absurd rfl h1
    | cons c cs => rfl
  simp [hne, h2]

theorem pathSessionId_chars {url s : String} (h : pathSessionId url = some s) :
    s.data ≠ [] ∧ s.data.all pathChar = true := by
  unfold pathSessionId at h
  cases hs : stripLeading wsPathChars url.data with
  | none => rw [hs] at h; exact absurd h (by simp)
  | some rest =>
      rw [hs] at h
      dsimp only at h
      by_cases he : rest.isEmpty
      · rw [if_pos he] at h; exact absurd h (by simp)
      · rw [if_neg he] at h
        by_cases ha : rest.all pathChar
        · rw [if_pos ha] at h
          have hsr : String.mk rest = s := Option.some.inj h
          subst hsr
          refine ⟨?_, ha⟩
          intro hnil
          apply he
          have hrest : rest = [] := hnil
          rw [hrest]
          rfl
        · rw [if_neg ha] at h; exact absurd h (by simp)

theorem pathSessionId_append_invalid (sid : String) (h : sid.data.all pathChar = false) :
    pathSessionId ("/ws/cli/" ++ sid) = none := by
  obtain ⟨l⟩ := sid
  have hdata : (("/ws/cli/" : String) ++ String.mk l).data = wsPathChars ++ l := rfl
  unfold pathSessionId
  rw [hdata, stripLeading_append]
  dsimp only
  by_cases he : l.isEmpty
  · rw [if_pos he]
  · rw [if_neg he, if_neg (by rw [show (String.mk l).data = l from rfl] at h; simp [h])]

/-! ## Router lemmas -/

theorem routeMessage_state (closed : List Nat) (now : Int) (sid : String)
    (m : ManagedSession) (msg : CLIMessage) :
    (routeMessage closed now sid m msg).1.info.state = m.info.state ∨
    (routeMessage closed now sid m msg).1.info.state = SessionState.ready := by
  cases msg with
  | systemInit a b c => right; rfl
  | systemOther a => left; rfl
  | assistantMsg a => left; rfl
  | resultMsg r => right; rfl
  | streamEvent a b => left; rfl
  | controlRequest rid sub tn inp tuid =>
      by_cases h : sub = "can_use_tool"
      · left
        simp only [routeMessage, if_pos h, autoApprovePermission]
        exact congrArg SessionInfo.state (sendToCLI_preserves closed m _).1
      · left
        simp [routeMessage, h]
  | keepAlive => left; rfl
  | otherMsg a => left; rfl

theorem routeMessage_proc (closed : List Nat) (now : Int) (sid : String)
    (m : ManagedSession) (msg : CLIMessage) :
    (routeMessage closed now sid m msg).1.processAlive = m.processAlive ∧
    (routeMessage closed now sid m msg).1.processSpawned = m.processSpawned := by
  cases msg with
  | systemInit a b c => exact ⟨rfl, rfl⟩
  | systemOther a => exact ⟨rfl, rfl⟩
  | assistantMsg a => exact ⟨rfl, rfl⟩
  | resultMsg r => exact ⟨rfl, rfl⟩
  | streamEvent a b => exact ⟨rfl, rfl⟩
  | controlRequest rid sub tn inp tuid =>
      by_cases h : sub = "can_use_tool"
      · simp only [routeMessage, if_pos h, autoApprovePermission]
        exact ⟨(sendToCLI_preserves closed m _).2.2.2.1, (sendToCLI_preserves closed m _).2.2.1⟩
      · simp [routeMessage, h]
  | keepAlive => exact ⟨rfl, rfl⟩
  | otherMsg a => exact ⟨rfl, rfl⟩

/-- The router only resolves the ready promise on an `init` frame; on every
other frame kind `readyResolved` is unchanged, and the state becomes
`ready` only on `init` or `result` frames. -/
theorem routeMessage_readyResolved (closed : List Nat) (now : Int) (sid : String)
    (m : ManagedSession) (msg : CLIMessage)
    (h : ∀ a b c, msg ≠ CLIMessage.systemInit a b c) :
    (routeMessage closed now sid m msg).1.readyResolved = m.readyResolved := by
  cases msg with
  | systemInit a b c => exact absurd rfl (h a b c)
  | systemOther a => rfl
  | assistantMsg a => rfl
  | resultMsg r => rfl
  | streamEvent a b => rfl
  | controlRequest rid sub tn inp tuid =>
      by_cases hh : sub = "can_use_tool"
      · simp only [routeMessage, if_pos hh, autoApprovePermission]
        exact (sendToCLI_preserves closed m _).2.2.2.2
      · simp [routeMessage, hh]
  | keepAlive => rfl
  | otherMsg a => rfl

theorem drop_len_append {α : Type} (l₁ l₂ : List α) : (l₁ ++ l₂).drop l₁.length = l₂ := by
  induction l₁ with
  | nil => rfl
  | cons a l ih => simp [ih]

/-! ## Claim C1 -/

/-- C1: while a session's transport is absent or not writable, every frame
passed to send is appended to the session's outbound queue without error
(no socket write happens), and at the moment a transport attaches,
`handleConnection` writes all queued frames to it in exactly their append
order and then clears the queue — no frame lost, duplicated or reordered. -/
theorem claim_C1_queue_fifo_flush (closed : List Nat) (m : ManagedSession)
    (fs : List OutFrame) (st : BridgeState) (sock : Nat) (sid : String)
    (hw : transportWritable closed m = false) :
    (sendAllToCLI closed m fs).2 = [] ∧
    (sendAllToCLI closed m fs).1.pendingMessages = m.pendingMessages ++ fs ∧
    (lookupS st.sessions sid = some (sendAllToCLI closed m fs).1 →
      sid.data ≠ [] → sid.data.all pathChar = true →
      ∃ st', handleConnection st sock ("/ws/cli/" ++ sid) =
          (st', ConnResult.attached ((m.pendingMessages ++ fs).map (fun f => (sock, f)))) ∧
        ∃ m', lookupS st'.sessions sid = some m' ∧
          m'.pendingMessages = [] ∧ m'.cliSocket = some sock) := by
  have hall := sendAllToCLI_not_writable closed m fs hw
  refine ⟨by rw [hall], by rw [hall], ?_⟩
  intro hreg hne hchars
  rw [hall] at hreg
  have hpath := pathSessionId_valid sid hne hchars
  have hconn : handleConnection st sock ("/ws/cli/" ++ sid) =
      ({ st with
          sessions := setS st.sessions sid
            ({ m with
                cliSocket := some sock,
                info := { m.info with state := SessionState.connected },
                pendingMessages := [] }),
          attachments := (sock, sid) :: st.attachments },
        ConnResult.attached ((m.pendingMessages ++ fs).map (fun f => (sock, f)))) := by
    unfold handleConnection
    rw [hpath]
    dsimp only
    rw [hreg]
  exact ⟨_, hconn, _, lookupS_setS_self st.sessions sid _, rfl, rfl⟩

/-- C1 witness at concrete inputs. -/
def c1m : ManagedSession :=
  { info := {
      sessionId := "ab",
      model := "m",
      permissionMode := PermissionMode.acceptEdits,
      state := SessionState.starting,
      cwd := ".",
      createdAt := 0,
      lastUsedAt := 0 },
    cliSocket := none,
    processSpawned := true,
    processAlive := true,
    pendingMessages := [OutFrame.interruptRequest "r0"],
    readyResolved := false }

/-- C1 concrete frames. -/
def c1fs : List OutFrame := [OutFrame.user "a" "", OutFrame.user "b" ""]

/-- C1 concrete bridge state holding the post-send session. -/
def c1st : BridgeState := { sessions := [("ab", (sendAllToCLI [] c1m c1fs).1)] }

theorem claim_C1_queue_fifo_flush_witness :
    transportWritable [] c1m = false ∧
    ((sendAllToCLI [] c1m c1fs).2 = [] ∧
     (sendAllToCLI [] c1m c1fs).1.pendingMessages = c1m.pendingMessages ++ c1fs ∧
     (lookupS c1st.sessions "ab" = some (sendAllToCLI [] c1m c1fs).1 →
       ("ab" : String).data ≠ [] → ("ab" : String).data.all pathChar = true →
       ∃ st', handleConnection c1st 7 ("/ws/cli/" ++ "ab") =
           (st', ConnResult.attached ((c1m.pendingMessages ++ c1fs).map (fun f => (7, f)))) ∧
         ∃ m', lookupS st'.sessions "ab" = some m' ∧
           m'.pendingMessages = [] ∧ m'.cliSocket = some 7)) :=
  ⟨by decide, claim_C1_queue_fifo_flush [] c1m c1fs c1st 7 "ab" (by decide)⟩

/-! ## Claim C3 -/

/-- C3: a routed `control_request` of subtype `can_use_tool` produces
exactly one `control_response` frame — behavior `allow`, request id equal to
the request's `request_id`, updated input equal to the proposed tool input —
and no bridge event; a `control_request` of any other subtype produces no
response at all. -/
theorem claim_C3_auto_approve (closed : List Nat) (now : Int) (sid : String)
    (m : ManagedSession) (request_id tool_name tool_use_id : String) (input : ToolInput) :
    (frameOutputs m
        (routeMessage closed now sid m
          (CLIMessage.controlRequest request_id "can_use_tool" tool_name input tool_use_id)).1
        (routeMessage closed now sid m
          (CLIMessage.controlRequest request_id "can_use_tool" tool_name input tool_use_id)).2.1 =
      [OutFrame.controlResponse "success" request_id "allow" input] ∧
      (routeMessage closed now sid m
        (CLIMessage.controlRequest request_id "can_use_tool" tool_name input tool_use_id)).2.2 =
        []) ∧
    (∀ subtype, subtype ≠ "can_use_tool" →
      routeMessage closed now sid m
        (CLIMessage.controlRequest request_id subtype tool_name input tool_use_id) =
        (m, [], [])) := by
  constructor
  · simp only [routeMessage, if_pos rfl, autoApprovePermission]
    cases hs : m.cliSocket with
    | none =>
        simp [sendToCLI, hs, frameOutputs, drop_len_append m.pendingMessages]
    | some sock =>
        by_cases hc : sock ∈ closed
        · simp [sendToCLI, hs, hc, frameOutputs, drop_len_append m.pendingMessages]
        · simp [sendToCLI, hs, hc, frameOutputs, List.drop_length]
  · intro subtype hsub
    simp [routeMessage, hsub]

theorem claim_C3_auto_approve_witness :
    ("interrupt" : String) ≠ "can_use_tool" ∧
    routeMessage [] 0 "s" c1m
        (CLIMessage.controlRequest "rq" "interrupt" "Bash" [("cmd", "ls")] "tu") =
      (c1m, [], []) :=
  ⟨by decide,
   (claim_C3_auto_approve [] 0 "s" c1m "rq" "Bash" "tu" [("cmd", "ls")]).2 "interrupt"
     (by decide)⟩

/-! ## Claim C7 -/

/-- C7: for one dispatched non-streaming turn, an `assistant` notification
followed by the matching `result` notification for the session resolves the
call exactly once with the combined aggregate response; the response has
role `assistant`, the assistant notification's content unchanged, its usage
fields taken from the result, and an `end_turn` result stop reason is kept. -/
theorem claim_C7_nonstreaming_assembly (sid freshId : String) (a : CLIAssistantMessage)
    (r : CLIResultMessage) (rest : List BridgeEvent) (lastA : Option CLIAssistantMessage) :
    handleNonStreaming sid freshId
        (BridgeEvent.assistantEv sid a :: BridgeEvent.resultEv sid r :: rest) lastA =
      NSOutcome.okResp (buildAnthropicResponse a r freshId) ∧
    (buildAnthropicResponse a r freshId).role = "assistant" ∧
    (buildAnthropicResponse a r freshId).content = a.message.content ∧
    (buildAnthropicResponse a r freshId).usage = r.usage ∧
    (buildAnthropicResponse a ({ r with stop_reason := some "end_turn" }) freshId).stop_reason =
      some "end_turn" := by
  refine ⟨?_, rfl, rfl, rfl, rfl⟩
  simp [handleNonStreaming]

/-! ## Claim C6 -/

/-- C6: `killSession` sends the graceful signal, waits at most the 5-second
grace period, force-kills a process that does not exit by itself, always
completes within the grace period regardless of cooperation or prior exit,
removes the record from the registry regardless of its state, and is a
no-op on an unknown id, which makes repeated calls idempotent. -/
theorem claim_C6_kill_semantics (st : BridgeState) (sid : String) (b : ProcBehavior) :
    (lookupS st.sessions sid = none →
      killSessionTimed st sid b =
        (st, { found := false, termSignalSent := false, forceKilled := false, elapsedMs := 0 })) ∧
    (killSessionTimed st sid b).2.elapsedMs ≤ killGraceMs ∧
    ((st.sessions.map Prod.fst).Nodup →
      lookupS (killSessionTimed st sid b).1.sessions sid = none) ∧
    ((st.sessions.map Prod.fst).Nodup → ∀ b',
      killSessionTimed (killSessionTimed st sid b).1 sid b' =
        ((killSessionTimed st sid b).1,
          { found := false, termSignalSent := false, forceKilled := false, elapsedMs := 0 })) ∧
    (∀ m, lookupS st.sessions sid = some m → m.processSpawned = true →
      (∀ ms, b = ProcBehavior.exitsAfter ms → ms < killGraceMs →
        (killSessionTimed st sid b).2 =
          { found := true, termSignalSent := true, forceKilled := false, elapsedMs := ms }) ∧
      (b = ProcBehavior.ignores →
        (killSessionTimed st sid b).2 =
          { found := true, termSignalSent := true, forceKilled := true,
            elapsedMs := killGraceMs })) := by
  cases hl : lookupS st.sessions sid with
  | none =>
      have hkt : killSessionTimed st sid b =
          (st, { found := false, termSignalSent := false, forceKilled := false,
                 elapsedMs := 0 }) := by
        unfold killSessionTimed
        rw [hl]
      refine ⟨fun _ => hkt, ?_, ?_, ?_, ?_⟩
      · rw [hkt]
        exact Nat.zero_le _
      · intro _
        rw [hkt]
        exact hl
      · intro _ b'
        rw [hkt]
        unfold killSessionTimed
        rw [hl]
      · intro m hm
        exact absurd hm.symm (by simp)
  | some m =>
      have hstate : (killSessionTimed st sid b).1 = killSessionState st sid := by
        unfold killSessionTimed
        rw [hl]
      have hdel : (killSessionState st sid).sessions = delS st.sessions sid := by
        unfold killSessionState
        rw [hl]
      refine ⟨fun hc => absurd hc (by simp), ?_, ?_, ?_, ?_⟩
      · unfold killSessionTimed
        rw [hl]
        dsimp only
        cases hsp : m.processSpawned
        · simp
        · cases b with
          | exitsAfter ms =>
              by_cases hms : ms < killGraceMs
              · simp only [hms, if_true]
                omega
              · simp [hms]
          | ignores => simp
          | alreadyExited => simp
      · intro hnd
        rw [hstate, hdel]
        exact lookupS_delS_self hnd
      · intro hnd b'
        have hnone : lookupS (killSessionState st sid).sessions sid = none := by
          rw [hdel]
          exact lookupS_delS_self hnd
        rw [hstate]
        unfold killSessionTimed
        rw [hnone]
      · intro m' hm' hsp
        have hmm : m = m' := Option.some.inj hm'
        subst hmm
        constructor
        · intro ms hb hms
          subst hb
          unfold killSessionTimed
          rw [hl]
          dsimp only
          rw [hsp]
          simp [hms]
        · intro hb
          subst hb
          unfold killSessionTimed
          rw [hl]
          dsimp only
          rw [hsp]
          simp

/-- C6 concrete state for the witness. -/
def c6st : BridgeState := { sessions := [("s", c1m)] }

theorem claim_C6_kill_semantics_witness :
    ((c6st.sessions.map Prod.fst).Nodup →
      lookupS (killSessionTimed c6st "s" ProcBehavior.ignores).1.sessions "s" = none) ∧
    (∀ m, lookupS c6st.sessions "s" = some m → m.processSpawned = true →
      (∀ ms, ProcBehavior.ignores = ProcBehavior.exitsAfter ms → ms < killGraceMs →
        (killSessionTimed c6st "s" ProcBehavior.ignores).2 =
          { found := true, termSignalSent := true, forceKilled := false, elapsedMs := ms }) ∧
      (ProcBehavior.ignores = ProcBehavior.ignores →
        (killSessionTimed c6st "s" ProcBehavior.ignores).2 =
          { found := true, termSignalSent := true, forceKilled := true,
            elapsedMs := killGraceMs })) :=
  ⟨(claim_C6_kill_semantics c6st "s" ProcBehavior.ignores).2.2.1,
   (claim_C6_kill_semantics c6st "s" ProcBehavior.ignores).2.2.2.2⟩

/-! ## Claim C8 -/

/-- C8 counterexample session: already `exited`, idle far past any
threshold. -/
def c8ex : ManagedSession :=
  { c1m with info := { c1m.info with state := SessionState.exited } }

/-- C8 counterexample: a session that is `exited` and idle past the
threshold is removed by the pass but `kill` is never invoked on it, so the
claim that every over-threshold session is killed fails on this input. -/
theorem claim_C8_reaper_cex :
    c8ex.info.state = SessionState.exited ∧
    (1000000000 : Int) - c8ex.info.lastUsedAt > 1800000 ∧
    reapIdleSessions 1000000000 1800000 [("s1", c8ex)] = ([], []) ∧
    "s1" ∉ (reapIdleSessions 1000000000 1800000 [("s1", c8ex)]).2 := by
  refine ⟨rfl, by decide, by decide, by decide⟩

/-- C8 (amended): on a reaper pass, every `exited` session entry is removed
from the registry (without being killed); every non-exited session whose
last activity is strictly older than the idle threshold is killed; and a
session whose last activity is within the threshold is never killed by the
reaper. -/
theorem claim_C8_reaper_amended (now timeout : Int) (l : List (String × ManagedSession))
    (sid : String) (m : ManagedSession) :
    ((sid, m) ∈ l → m.info.state = SessionState.exited →
      (sid, m) ∉ (reapIdleSessions now timeout l).1) ∧
    ((sid, m) ∈ l → m.info.state ≠ SessionState.exited →
      now - m.info.lastUsedAt > timeout → sid ∈ (reapIdleSessions now timeout l).2) ∧
    ((l.map Prod.fst).Nodup → (sid, m) ∈ l → now - m.info.lastUsedAt ≤ timeout →
      sid ∉ (reapIdleSessions now timeout l).2) := by
  refine ⟨?_, ?_, ?_⟩
  · intro _ hex hkept
    have hf := (List.mem_filter.mp hkept).2
    unfold reapKeeps at hf
    rw [if_pos hex] at hf
    exact absurd hf (by simp)
  · intro hmem hnex hover
    refine List.mem_map.mpr ⟨(sid, m), List.mem_filter.mpr ⟨hmem, ?_⟩, rfl⟩
    unfold reapKills
    rw [if_neg hnex]
    exact decide_eq_true hover
  · intro hnd hmem hwithin hkill
    rcases List.mem_map.mp hkill with ⟨⟨k, m'⟩, hm', hfst⟩
    have hk : k = sid := hfst
    subst hk
    have hpair := List.mem_filter.mp hm'
    have heq : m' = m := mem_unique_of_nodup hnd hpair.1 hmem
    subst heq
    have hkills := hpair.2
    unfold reapKills at hkills
    by_cases hex : m'.info.state = SessionState.exited
    · rw [if_pos hex] at hkills
      exact absurd hkills (by simp)
    · rw [if_neg hex] at hkills
      exact absurd (of_decide_eq_true hkills) (not_lt.mpr hwithin)

/-- C8 witness session: recently active. -/
def c8fresh : ManagedSession :=
  { c1m with info := { c1m.info with lastUsedAt := 999999999 } }

/-- C8 concrete registry for the witness. -/
def c8l : List (String × ManagedSession) := [("old", c1m), ("fresh", c8fresh)]

theorem claim_C8_reaper_amended_witness :
    (("old", c1m) ∈ c8l ∧ c1m.info.state ≠ SessionState.exited ∧
      (1000000000 : Int) - c1m.info.lastUsedAt > 1800000 ∧
      "old" ∈ (reapIdleSessions 1000000000 1800000 c8l).2) ∧
    ((c8l.map Prod.fst).Nodup ∧ ("fresh", c8fresh) ∈ c8l ∧
      (1000000000 : Int) - c8fresh.info.lastUsedAt ≤ 1800000 ∧
      "fresh" ∉ (reapIdleSessions 1000000000 1800000 c8l).2) :=
  ⟨⟨by decide, by decide, by decide,
    (claim_C8_reaper_amended 1000000000 1800000 c8l "old" c1m).2.1
      (by decide) (by decide) (by decide)⟩,
   ⟨by decide, by decide, by decide,
    (claim_C8_reaper_amended 1000000000 1800000 c8l "fresh" c8fresh).2.2
      (by decide) (by decide) (by decide)⟩⟩

/-! ## Claim C4 -/

/-- C4 counterexample options: a supplied empty-string session id. -/
def c4aopts : SpawnOptions := { sessionId := some "" }

/-- C4 counterexample registry: the id `""` is registered (reachable, since
`spawnSession`'s `?? randomUUID()` is nullish and keeps a supplied `""`). -/
def c4ast : BridgeState := (spawnSession emptyBridge c4aopts "zz" 0).1

/-- C4 counterexample: `""` names a registered non-exited session, yet
`getOrCreate` supplying it skips the truthiness-guarded existing-session
branch (`options.sessionId &&` is falsy on `""`), launches a second process
and does not return `isNew = false` — the claim fails at this input. -/
theorem claim_C4_empty_id_cex :
    lookupS c4ast.sessions "" = some (spawnRecord c4aopts "" 0) ∧
    (spawnRecord c4aopts "" 0).info.state ≠ SessionState.exited ∧
    (getOrCreate c4ast c4aopts "f2" 1 []).2.2 = 1 ∧
    (getOrCreate c4ast c4aopts "f2" 1 []).1 = GOCOutcome.timeoutErr "" ∧
    (getOrCreate c4ast c4aopts "f2" 1 []).1 ≠ GOCOutcome.okExisting "" := by
  exact ⟨by decide, by decide, by decide, by decide, by decide⟩

/-- C4 (amended): for every **non-empty** session id that names a
registered non-exited session, `getOrCreate` supplying that id returns the
same id with `isNew = false`, leaves the registry untouched and launches no
process; calling it twice therefore yields the same id both times, and a
create-then-reuse sequence performs exactly one launch in total.  (A
supplied empty id is falsy to the guard and always takes the creation
path.) -/
theorem claim_C4_getOrCreate_idempotent (st : BridgeState) (sid : String)
    (m : ManagedSession) (opts : SpawnOptions) (freshId freshId' : String)
    (now now' : Int) (dw dw' : List Op)
    (hne : sid ≠ "")
    (hreg : lookupS st.sessions sid = some m)
    (hnex : m.info.state ≠ SessionState.exited)
    (hsid : opts.sessionId = some sid) :
    getOrCreate st opts freshId now dw = (GOCOutcome.okExisting sid, st, 0) ∧
    getOrCreate (getOrCreate st opts freshId now dw).2.1 opts freshId' now' dw' =
      (GOCOutcome.okExisting sid, st, 0) ∧
    (∀ st0 : BridgeState, lookupS st0.sessions sid = none →
      (getOrCreate st0 opts freshId now []).2.2 = 1 ∧
      (getOrCreate (getOrCreate st0 opts freshId now []).2.1 opts freshId' now' dw').1 =
        GOCOutcome.okExisting sid ∧
      (getOrCreate (getOrCreate st0 opts freshId now []).2.1 opts freshId' now' dw').2.2 = 0) := by
  have h1 : ∀ (f : String) (n : Int) (d : List Op),
      getOrCreate st opts f n d = (GOCOutcome.okExisting sid, st, 0) := by
    intro f n d
    unfold getOrCreate
    rw [hsid]
    dsimp only
    rw [if_neg hne]
    rw [hreg]
    dsimp only
    rw [if_neg hnex]
  refine ⟨h1 freshId now dw, ?_, ?_⟩
  · rw [h1 freshId now dw]
    exact h1 freshId' now' dw'
  · intro st0 hnone
    have hid : opts.sessionId.getD freshId = sid := by rw [hsid]; rfl
    have hw : waitForReadySucceeds
        ({ st0 with sessions := setS st0.sessions sid (spawnRecord opts sid now) }) sid [] =
          false := by
      unfold waitForReadySucceeds
      rw [lookupS_setS_self]
      dsimp only
      unfold trajectory readyResolvedAt
      rw [List.any_cons, List.any_nil, lookupS_setS_self]
      rfl
    have hstep1 : getOrCreate st0 opts freshId now [] =
        (GOCOutcome.timeoutErr sid,
         { st0 with sessions := setS st0.sessions sid (spawnRecord opts sid now) }, 1) := by
      unfold getOrCreate
      rw [hsid]
      dsimp only
      rw [if_neg hne]
      rw [hnone]
      unfold getOrCreateNew spawnSession
      dsimp only
      rw [hid, hw]
      rfl
    have hstep2 : getOrCreate
        ({ st0 with sessions := setS st0.sessions sid (spawnRecord opts sid now) })
        opts freshId' now' dw' =
        (GOCOutcome.okExisting sid,
         { st0 with sessions := setS st0.sessions sid (spawnRecord opts sid now) }, 0) := by
      unfold getOrCreate
      rw [hsid]
      dsimp only
      rw [if_neg hne]
      rw [lookupS_setS_self]
      dsimp only
      rw [if_neg (by simp [spawnRecord])]
    refine ⟨by rw [hstep1], ?_, ?_⟩
    · rw [hstep1]
      dsimp only
      rw [hstep2]
    · rw [hstep1]
      dsimp only
      rw [hstep2]

/-- C4 concrete registry for the witness. -/
def c4st : BridgeState := { sessions := [("ab", c1m)] }

/-- C4 concrete spawn options. -/
def c4opts : SpawnOptions := { sessionId := some "ab" }

theorem claim_C4_getOrCreate_idempotent_witness :
    ("ab" : String) ≠ "" ∧
    lookupS c4st.sessions "ab" = some c1m ∧
    c1m.info.state ≠ SessionState.exited ∧
    getOrCreate c4st c4opts "zz" 0 [] = (GOCOutcome.okExisting "ab", c4st, 0) :=
  ⟨by decide, by decide, by decide,
   (claim_C4_getOrCreate_idempotent c4st "ab" c1m c4opts "zz" "zz" 0 0 [] []
      (by decide) (by decide) (by decide) rfl).1⟩

/-! ## Claim C5 -/

/-- Callbacks that neither remove the session nor terminate its process:
everything except `kill` of this id, its own process exit, a reaper pass,
and a re-spawn under the same id. -/
def benignFor (sid : String) : Op → Bool
  | Op.killOp s => decide (s ≠ sid)
  | Op.reapOp _ => false
  | Op.exitOp s _ => decide (s ≠ sid)
  | Op.spawnOp o f _ => decide (o.sessionId.getD f ≠ sid)
  | _ => true

theorem benign_step_preserves (st : BridgeState) (op : Op) (sid : String)
    (hb : benignFor sid op = true) (m : ManagedSession)
    (hm : lookupS st.sessions sid = some m) :
    ∃ m', lookupS (step st op).1.sessions sid = some m' ∧
      m'.processAlive = m.processAlive ∧ m'.processSpawned = m.processSpawned := by
  cases op with
  | spawnOp o f n =>
      have hne : o.sessionId.getD f ≠ sid := of_decide_eq_true hb
      refine ⟨m, ?_, rfl, rfl⟩
      simp only [step, spawnSession]
      rw [lookupS_setS_ne _ _ _ _ (Ne.symm hne)]
      exact hm
  | connectOp sock url =>
      simp only [step]
      cases hp : pathSessionId url with
      | none =>
          unfold handleConnection
          rw [hp]
          exact ⟨m, hm, rfl, rfl⟩
      | some sid' =>
          cases hl : lookupS st.sessions sid' with
          | none =>
              unfold handleConnection
              rw [hp]
              dsimp only
              rw [hl]
              exact ⟨m, hm, rfl, rfl⟩
          | some managed =>
              unfold handleConnection
              rw [hp]
              dsimp only
              rw [hl]
              dsimp only
              by_cases hss : sid' = sid
              · subst hss
                have hmm : managed = m := Option.some.inj (hl ▸ hm)
                subst hmm
                exact ⟨_, lookupS_setS_self .., rfl, rfl⟩
              · refine ⟨m, ?_, rfl, rfl⟩
                rw [lookupS_setS_ne _ _ _ _ (Ne.symm hss)]
                exact hm
  | socketCloseOp sock =>
      simp only [step]
      cases ha : lookupS st.attachments sock with
      | none => exact ⟨m, hm, rfl, rfl⟩
      | some sid' =>
          dsimp only
          cases hl : lookupS st.sessions sid' with
          | none => exact ⟨m, hm, rfl, rfl⟩
          | some managed =>
              dsimp only
              by_cases hss : sid' = sid
              · subst hss
                have hmm : managed = m := Option.some.inj (hl ▸ hm)
                subst hmm
                exact ⟨_, lookupS_setS_self .., rfl, rfl⟩
              · refine ⟨m, ?_, rfl, rfl⟩
                rw [lookupS_setS_ne _ _ _ _ (Ne.symm hss)]
                exact hm
  | messageOp sock n msg =>
      simp only [step]
      by_cases hc : sock ∈ st.closedSockets
      · rw [if_pos hc]
        exact ⟨m, hm, rfl, rfl⟩
      · rw [if_neg hc]
        cases ha : lookupS st.attachments sock with
        | none => exact ⟨m, hm, rfl, rfl⟩
        | some sid' =>
            dsimp only
            cases hl : lookupS st.sessions sid' with
            | none => exact ⟨m, hm, rfl, rfl⟩
            | some managed =>
                dsimp only
                by_cases hss : sid' = sid
                · subst hss
                  have hmm : managed = m := Option.some.inj (hl ▸ hm)
                  subst hmm
                  refine ⟨_, lookupS_setS_self .., ?_, ?_⟩
                  · exact (routeMessage_proc st.closedSockets n sid' managed msg).1
                  · exact (routeMessage_proc st.closedSockets n sid' managed msg).2
                · refine ⟨m, ?_, rfl, rfl⟩
                  rw [lookupS_setS_ne _ _ _ _ (Ne.symm hss)]
                  exact hm
  | sendUserOp s content n =>
      simp only [step, sendUserMessage]
      cases hl : lookupS st.sessions s with
      | none => exact ⟨m, hm, rfl, rfl⟩
      | some managed =>
          dsimp only
          by_cases hss : s = sid
          · subst hss
            have hmm : managed = m := Option.some.inj (hl ▸ hm)
            subst hmm
            refine ⟨_, lookupS_setS_self .., ?_, ?_⟩
            · exact (sendToCLI_preserves st.closedSockets _ _).2.2.2.1
            · exact (sendToCLI_preserves st.closedSockets _ _).2.2.1
          · refine ⟨m, ?_, rfl, rfl⟩
            rw [lookupS_setS_ne _ _ _ _ (Ne.symm hss)]
            exact hm
  | interruptOp s rid =>
      simp only [step, sendInterrupt]
      cases hl : lookupS st.sessions s with
      | none => exact ⟨m, hm, rfl, rfl⟩
      | some managed =>
          dsimp only
          by_cases hss : s = sid
          · subst hss
            have hmm : managed = m := Option.some.inj (hl ▸ hm)
            subst hmm
            refine ⟨_, lookupS_setS_self .., ?_, ?_⟩
            · exact (sendToCLI_preserves st.closedSockets _ _).2.2.2.1
            · exact (sendToCLI_preserves st.closedSockets _ _).2.2.1
          · refine ⟨m, ?_, rfl, rfl⟩
            rw [lookupS_setS_ne _ _ _ _ (Ne.symm hss)]
            exact hm
  | exitOp s code =>
      have hne : s ≠ sid := of_decide_eq_true hb
      simp only [step]
      cases hl : lookupS st.sessions s with
      | none => exact ⟨m, hm, rfl, rfl⟩
      | some managed =>
          dsimp only
          refine ⟨m, ?_, rfl, rfl⟩
          rw [lookupS_setS_ne _ _ _ _ (Ne.symm hne)]
          exact hm
  | killOp s =>
      have hne : s ≠ sid := of_decide_eq_true hb
      simp only [step, killSessionState]
      cases hl : lookupS st.sessions s with
      | none => exact ⟨m, hm, rfl, rfl⟩
      | some managed =>
          dsimp only
          refine ⟨m, ?_, rfl, rfl⟩
          rw [lookupS_delS_ne _ _ _ (Ne.symm hne)]
          exact hm
  | reapOp n => exact absurd hb (by simp [benignFor])

theorem benign_run_preserves (sid : String) :
    ∀ ops : List Op, (∀ op ∈ ops, benignFor sid op = true) →
    ∀ (st : BridgeState) (m : ManagedSession), lookupS st.sessions sid = some m →
    ∃ m', lookupS (runState st ops).sessions sid = some m' ∧
      m'.processAlive = m.processAlive ∧ m'.processSpawned = m.processSpawned := by
  intro ops
  induction ops with
  | nil =>
      intro _ st m hm
      exact ⟨m, hm, rfl, rfl⟩
  | cons op rest ih =>
      intro hb st m hm
      obtain ⟨m1, hm1, ha1, hs1⟩ :=
        benign_step_preserves st op sid (hb op (List.mem_cons_self op rest)) m hm
      obtain ⟨m2, hm2, ha2, hs2⟩ :=
        ih (fun o ho => hb o (List.mem_cons_of_mem op ho)) (step st op).1 m1 hm1
      exact ⟨m2, hm2, ha2.trans ha1, hs2.trans hs1⟩

/-- C5: for a freshly created session, `getOrCreate` blocks until the
record reaches `ready` or the bounded 30-second timeout elapses; on timeout
the call fails with the timeout error while exactly one process was
launched and the newly created record remains registered with its process
still alive (the timeout neither removes it nor terminates it). -/
theorem claim_C5_readiness_timeout (st : BridgeState) (opts : SpawnOptions)
    (sid freshId : String) (now : Int) (dw : List Op)
    (hsid : opts.sessionId = some sid)
    (hnone : lookupS st.sessions sid = none)
    (hbenign : ∀ op ∈ dw, benignFor sid op = true)
    (hnoready : waitForReadySucceeds (spawnSession st opts freshId now).1 sid dw = false) :
    (getOrCreate st opts freshId now dw).1 = GOCOutcome.timeoutErr sid ∧
    (getOrCreate st opts freshId now dw).2.2 = 1 ∧
    (∃ m', lookupS (getOrCreate st opts freshId now dw).2.1.sessions sid = some m' ∧
      m'.processAlive = true ∧ m'.processSpawned = true) ∧
    waitForReadyTimeoutMs = 30000 := by
  have hid : opts.sessionId.getD freshId = sid := by rw [hsid]; rfl
  have hspawn : (spawnSession st opts freshId now).1 =
      { st with sessions := setS st.sessions sid (spawnRecord opts sid now) } := by
    unfold spawnSession
    dsimp only
    rw [hid]
  have hgc : getOrCreate st opts freshId now dw =
      (GOCOutcome.timeoutErr sid,
       runState ({ st with sessions := setS st.sessions sid (spawnRecord opts sid now) }) dw,
       1) := by
    rw [hspawn] at hnoready
    have hnew : getOrCreateNew st opts freshId now dw =
        (GOCOutcome.timeoutErr sid,
         runState ({ st with sessions := setS st.sessions sid (spawnRecord opts sid now) }) dw,
         1) := by
      unfold getOrCreateNew
      dsimp only
      rw [show (spawnSession st opts freshId now).2 = sid from hid, hspawn, hnoready]
      simp only [Bool.false_eq_true, if_false]
    unfold getOrCreate
    rw [hsid]
    dsimp only
    by_cases hse : sid = ""
    · rw [if_pos hse]
      exact hnew
    · rw [if_neg hse]
      rw [hnone]
      exact hnew
  refine ⟨by rw [hgc], by rw [hgc], ?_, rfl⟩
  rw [hgc]
  dsimp only
  obtain ⟨m', hm', ha, hs⟩ := benign_run_preserves sid dw hbenign
      ({ st with sessions := setS st.sessions sid (spawnRecord opts sid now) })
      (spawnRecord opts sid now) (lookupS_setS_self ..)
  exact ⟨m', hm', ha, hs⟩

/-- C5 concrete spawn options for the witness. -/
def c5opts : SpawnOptions := { sessionId := some "ab" }

theorem claim_C5_readiness_timeout_witness :
    c5opts.sessionId = some "ab" ∧
    lookupS emptyBridge.sessions "ab" = none ∧
    waitForReadySucceeds (spawnSession emptyBridge c5opts "zz" 0).1 "ab" [] = false ∧
    ((getOrCreate emptyBridge c5opts "zz" 0 []).1 = GOCOutcome.timeoutErr "ab" ∧
     (getOrCreate emptyBridge c5opts "zz" 0 []).2.2 = 1 ∧
     (∃ m', lookupS (getOrCreate emptyBridge c5opts "zz" 0 []).2.1.sessions "ab" = some m' ∧
       m'.processAlive = true ∧ m'.processSpawned = true) ∧
     waitForReadyTimeoutMs = 30000) :=
  ⟨rfl, rfl, by decide,
   claim_C5_readiness_timeout emptyBridge c5opts "ab" "zz" 0 [] rfl rfl
     (fun o ho => absurd ho (List.not_mem_nil o)) (by decide)⟩

/-! ## Claim C2 -/

/-- C2 counterexample run: spawn a session and dispatch a user message while
it is still `starting` (reachable through the HTTP layer, since a second
`getOrCreate` returns a still-starting session without waiting). -/
def c2ops : List Op :=
  [Op.spawnOp { sessionId := some "aa" } "zz" 0,
   Op.sendUserOp "aa" "hi" 1]

/-- C2 counterexample: the observed state history is
`starting → busy` — an edge outside the spec graph — and the session is in
`busy` without ever having been `ready`, so the claimed invariant fails. -/
theorem claim_C2_state_graph_cex :
    stateHistory emptyBridge c2ops "aa" =
      [none, some SessionState.starting, some SessionState.busy] ∧
    followsSpecGraph (stateHistory emptyBridge c2ops "aa") = false ∧
    some SessionState.busy ∈ stateHistory emptyBridge c2ops "aa" ∧
    some SessionState.ready ∉ stateHistory emptyBridge c2ops "aa" := by
  exact ⟨by decide, by decide, by decide, by decide⟩

/-- C2 (amended): each operation either leaves a session's observed state
unchanged or forces it to the operation's fixed target state regardless of
the previous state — transport attach to `connected`, frame routing to
`ready`, user-message dispatch to `busy` (also from `starting`, without any
earlier `ready`), process exit to `exited`, kill/reap to removal.  The spec
graph of §4.3 is not enforced by the code. -/
theorem claim_C2_state_graph_amended (st : BridgeState) (op : Op) (sid : String)
    (hnd : (st.sessions.map Prod.fst).Nodup) :
    stateOf (step st op).1 sid = stateOf st sid ∨
    stateOf (step st op).1 sid ∈ opTargets op sid := by
  cases op with
  | spawnOp o f n =>
      simp only [step, spawnSession]
      by_cases he : o.sessionId.getD f = sid
      · right
        unfold stateOf
        rw [he, lookupS_setS_self]
        simp [opTargets, he, spawnRecord]
      · left
        unfold stateOf
        rw [lookupS_setS_ne _ _ _ _ (Ne.symm he)]
  | connectOp sock url =>
      simp only [step]
      cases hp : pathSessionId url with
      | none =>
          left
          unfold handleConnection
          rw [hp]
      | some sid' =>
          unfold handleConnection
          rw [hp]
          dsimp only
          cases hl : lookupS st.sessions sid' with
          | none => left; rfl
          | some managed =>
              dsimp only
              by_cases hss : sid' = sid
              · subst hss
                right
                unfold stateOf
                rw [lookupS_setS_self]
                simp [opTargets]
              · left
                unfold stateOf
                rw [lookupS_setS_ne _ _ _ _ (Ne.symm hss)]
  | socketCloseOp sock =>
      simp only [step]
      cases ha : lookupS st.attachments sock with
      | none => left; rfl
      | some sid' =>
          dsimp only
          cases hl : lookupS st.sessions sid' with
          | none => left; rfl
          | some managed =>
              dsimp only
              left
              by_cases hss : sid' = sid
              · subst hss
                unfold stateOf
                rw [lookupS_setS_self, hl]
                rfl
              · unfold stateOf
                rw [lookupS_setS_ne _ _ _ _ (Ne.symm hss)]
  | messageOp sock n msg =>
      simp only [step]
      by_cases hc : sock ∈ st.closedSockets
      · rw [if_pos hc]
        left
        rfl
      · rw [if_neg hc]
        cases ha : lookupS st.attachments sock with
        | none => left; rfl
        | some sid' =>
            dsimp only
            cases hl : lookupS st.sessions sid' with
            | none => left; rfl
            | some managed =>
                dsimp only
                by_cases hss : sid' = sid
                · subst hss
                  rcases routeMessage_state st.closedSockets n sid' managed msg with hrs | hrs
                  · left
                    unfold stateOf
                    rw [lookupS_setS_self, hl]
                    simp only [Option.map]
                    rw [hrs]
                  · right
                    unfold stateOf
                    rw [lookupS_setS_self]
                    simp only [Option.map]
                    rw [hrs]
                    simp [opTargets]
                · left
                  unfold stateOf
                  rw [lookupS_setS_ne _ _ _ _ (Ne.symm hss)]
  | sendUserOp s content n =>
      simp only [step, sendUserMessage]
      cases hl : lookupS st.sessions s with
      | none => left; rfl
      | some managed =>
          dsimp only
          by_cases hss : s = sid
          · subst hss
            right
            unfold stateOf
            rw [lookupS_setS_self]
            have hinfo := (sendToCLI_preserves st.closedSockets
              ({ managed with info := { managed.info with
                  state := SessionState.busy, lastUsedAt := n } })
              (OutFrame.user content (managed.info.cliSessionId.getD ""))).1
            simp [opTargets, hinfo]
          · left
            unfold stateOf
            rw [lookupS_setS_ne _ _ _ _ (Ne.symm hss)]
  | interruptOp s rid =>
      simp only [step, sendInterrupt]
      cases hl : lookupS st.sessions s with
      | none => left; rfl
      | some managed =>
          dsimp only
          left
          by_cases hss : s = sid
          · subst hss
            unfold stateOf
            rw [lookupS_setS_self, hl]
            simp only [Option.map]
            rw [(sendToCLI_preserves st.closedSockets managed
              (OutFrame.interruptRequest rid)).1]
          · unfold stateOf
            rw [lookupS_setS_ne _ _ _ _ (Ne.symm hss)]
  | exitOp s code =>
      simp only [step]
      cases hl : lookupS st.sessions s with
      | none => left; rfl
      | some managed =>
          dsimp only
          by_cases hss : s = sid
          · subst hss
            right
            unfold stateOf
            rw [lookupS_setS_self]
            simp [opTargets]
          · left
            unfold stateOf
            rw [lookupS_setS_ne _ _ _ _ (Ne.symm hss)]
  | killOp s =>
      simp only [step, killSessionState]
      cases hl : lookupS st.sessions s with
      | none => left; rfl
      | some managed =>
          dsimp only
          by_cases hss : s = sid
          · subst hss
            right
            unfold stateOf
            rw [lookupS_delS_self hnd]
            simp [opTargets]
          · left
            unfold stateOf
            rw [lookupS_delS_ne _ _ _ (Ne.symm hss)]
  | reapOp n =>
      simp only [step, reapIdleSessions]
      unfold stateOf
      rw [lookupS_filter _ sid hnd]
      cases hl : lookupS st.sessions sid with
      | none => left; rfl
      | some m =>
          simp only [Option.bind]
          by_cases hk : reapKeeps n st.sessionTimeout (sid, m) = true
          · left
            rw [if_pos hk]
          · right
            rw [if_neg hk]
            simp [opTargets]

theorem claim_C2_state_graph_amended_witness :
    ((c4st.sessions.map Prod.fst).Nodup) ∧
    (stateOf (step c4st (Op.sendUserOp "ab" "x" 5)).1 "ab" = stateOf c4st "ab" ∨
     stateOf (step c4st (Op.sendUserOp "ab" "x" 5)).1 "ab" ∈
       opTargets (Op.sendUserOp "ab" "x" 5) "ab") :=
  ⟨by decide, claim_C2_state_graph_amended c4st (Op.sendUserOp "ab" "x" 5) "ab" (by decide)⟩

/-! ## Claim C9 -/

/-- C9 counterexample run: attach socket 1, close it, send a frame (which
queues), then a second connection attaches for the same session. -/
def c9ops : List Op :=
  [Op.spawnOp { sessionId := some "abc" } "zz" 0,
   Op.connectOp 1 "/ws/cli/abc",
   Op.socketCloseOp 1,
   Op.sendUserOp "abc" "hello" 5,
   Op.connectOp 2 "/ws/cli/abc"]

/-- C9 counterexample: after the transport closed, a later reconnect IS
reattached as the session's transport (socket 2), and the frame submitted
after the close IS delivered to it — both parts of the claim fail on this
run. -/
theorem claim_C9_no_reattach_cex :
    runWrites emptyBridge c9ops = [(2, OutFrame.user "hello" "")] ∧
    (lookupS (runState emptyBridge c9ops).sessions "abc").map (fun m => m.cliSocket) =
      some (some 2) ∧
    (lookupS (runState emptyBridge c9ops).sessions "abc").map
        (fun m => m.pendingMessages) = some [] := by
  exact ⟨by decide, by decide, by decide⟩

/-- C9 (amended): when a session's transport connection closes, the
transport handle is cleared but the record is retained; frames sent while
no transport is attached are queued without error; and a later inbound
connection for the same (well-formed) session id is reattached as the
session's transport, receiving all queued frames in order — so frames
submitted after a close are delivered upon reconnection rather than lost. -/
theorem claim_C9_reattach_amended (st : BridgeState) (sock : Nat) (sid : String)
    (m : ManagedSession)
    (hatt : lookupS st.attachments sock = some sid)
    (hreg : lookupS st.sessions sid = some m) :
    lookupS (step st (Op.socketCloseOp sock)).1.sessions sid =
      some ({ m with cliSocket := none }) ∧
    (∀ (closed : List Nat) (f : OutFrame),
      sendToCLI closed ({ m with cliSocket := none }) f =
        ({ m with cliSocket := none, pendingMessages := m.pendingMessages ++ [f] }, [])) ∧
    (∀ (st2 : BridgeState) (m2 : ManagedSession) (sock' : Nat),
      lookupS st2.sessions sid = some m2 →
      sid.data ≠ [] → sid.data.all pathChar = true →
      ∃ st', handleConnection st2 sock' ("/ws/cli/" ++ sid) =
          (st', ConnResult.attached (m2.pendingMessages.map (fun f => (sock', f)))) ∧
        ∃ m', lookupS st'.sessions sid = some m' ∧ m'.cliSocket = some sock' ∧
          m'.pendingMessages = []) := by
  refine ⟨?_, ?_, ?_⟩
  · simp only [step]
    rw [hatt]
    dsimp only
    rw [hreg]
    dsimp only
    exact lookupS_setS_self ..
  · intro closed f
    rfl
  · intro st2 m2 sock' hreg2 hne hchars
    have hpath := pathSessionId_valid sid hne hchars
    have hconn : handleConnection st2 sock' ("/ws/cli/" ++ sid) =
        ({ st2 with
            sessions := setS st2.sessions sid
              ({ m2 with
                  cliSocket := some sock',
                  info := { m2.info with state := SessionState.connected },
                  pendingMessages := [] }),
            attachments := (sock', sid) :: st2.attachments },
          ConnResult.attached (m2.pendingMessages.map (fun f => (sock', f)))) := by
      unfold handleConnection
      rw [hpath]
      dsimp only
      rw [hreg2]
    exact ⟨_, hconn, _, lookupS_setS_self st2.sessions sid _, rfl, rfl⟩

/-- C9 concrete post-close state for the witness. -/
def c9st : BridgeState :=
  { sessions := [("abc", c1m)], attachments := [(1, "abc")] }

theorem claim_C9_reattach_amended_witness :
    lookupS c9st.attachments 1 = some "abc" ∧
    lookupS c9st.sessions "abc" = some c1m ∧
    lookupS (step c9st (Op.socketCloseOp 1)).1.sessions "abc" =
      some ({ c1m with cliSocket := none }) :=
  ⟨by decide, by decide,
   (claim_C9_reattach_amended c9st 1 "abc" c1m (by decide) (by decide)).1⟩

/-! ## Claim C10 -/

/-- Invariant for a session id whose characters cannot match the transport
path pattern: no socket is ever attached for it, and every registry record
under it is neither `ready` nor has a resolved ready promise. -/
def noReadyInv (st : BridgeState) (sid : String) : Prop :=
  (∀ p ∈ st.attachments, (p : Nat × String).2 ≠ sid) ∧
  (∀ q ∈ st.sessions, (q : String × ManagedSession).1 = sid →
    q.2.info.state ≠ SessionState.ready ∧ q.2.readyResolved = false)

theorem noReadyInv_step (sid : String) (hbad : sid.data.all pathChar = false)
    (st : BridgeState) (op : Op) (h : noReadyInv st sid) :
    noReadyInv (step st op).1 sid := by
  cases op with
  | spawnOp o f n =>
      simp only [step, spawnSession]
      refine ⟨h.1, ?_⟩
      intro q hq hfst
      rcases mem_setS hq with hq' | hq'
      · exact h.2 q hq' hfst
      · rw [hq'.2]
        exact ⟨by simp [spawnRecord], rfl⟩
  | connectOp sock url =>
      simp only [step]
      cases hp : pathSessionId url with
      | none =>
          unfold handleConnection
          rw [hp]
          exact h
      | some sid' =>
          have hs' : sid' ≠ sid := by
            intro hcontra
            subst hcontra
            exact absurd (pathSessionId_chars hp).2 (by rw [hbad]; simp)
          unfold handleConnection
          rw [hp]
          dsimp only
          cases hl : lookupS st.sessions sid' with
          | none => exact h
          | some managed =>
              dsimp only
              refine ⟨?_, ?_⟩
              · intro p hp2
                rcases List.mem_cons.mp hp2 with hp3 | hp3
                · rw [hp3]
                  exact hs'
                · exact h.1 p hp3
              · intro q hq hfst
                rcases mem_setS hq with hq' | hq'
                · exact h.2 q hq' hfst
                · exact absurd (hq'.1 ▸ hfst) hs'
  | socketCloseOp sock =>
      simp only [step]
      cases ha : lookupS st.attachments sock with
      | none => exact ⟨h.1, h.2⟩
      | some sid' =>
          have hs' : sid' ≠ sid := h.1 (sock, sid') (lookupS_mem ha)
          dsimp only
          cases hl : lookupS st.sessions sid' with
          | none => exact ⟨h.1, h.2⟩
          | some managed =>
              dsimp only
              refine ⟨h.1, ?_⟩
              intro q hq hfst
              rcases mem_setS hq with hq' | hq'
              · exact h.2 q hq' hfst
              · exact absurd (hq'.1 ▸ hfst) hs'
  | messageOp sock n msg =>
      simp only [step]
      by_cases hc : sock ∈ st.closedSockets
      · rw [if_pos hc]
        exact h
      · rw [if_neg hc]
        cases ha : lookupS st.attachments sock with
        | none => exact h
        | some sid' =>
            have hs' : sid' ≠ sid := h.1 (sock, sid') (lookupS_mem ha)
            dsimp only
            cases hl : lookupS st.sessions sid' with
            | none => exact h
            | some managed =>
                dsimp only
                refine ⟨h.1, ?_⟩
                intro q hq hfst
                rcases mem_setS hq with hq' | hq'
                · exact h.2 q hq' hfst
                · exact absurd (hq'.1 ▸ hfst) hs'
  | sendUserOp s content n =>
      simp only [step, sendUserMessage]
      cases hl : lookupS st.sessions s with
      | none => exact h
      | some managed =>
          dsimp only
          refine ⟨h.1, ?_⟩
          intro q hq hfst
          rcases mem_setS hq with hq' | hq'
          · exact h.2 q hq' hfst
          · by_cases hss : s = sid
            · subst hss
              rw [hq'.2]
              have hpres := sendToCLI_preserves st.closedSockets
                ({ managed with info := { managed.info with
                    state := SessionState.busy, lastUsedAt := n } })
                (OutFrame.user content (managed.info.cliSessionId.getD ""))
              constructor
              · rw [hpres.1]
                simp
              · rw [hpres.2.2.2.2]
                exact (h.2 (s, managed) (lookupS_mem hl) rfl).2
            · exact absurd (hq'.1 ▸ hfst) hss
  | interruptOp s rid =>
      simp only [step, sendInterrupt]
      cases hl : lookupS st.sessions s with
      | none => exact h
      | some managed =>
          dsimp only
          refine ⟨h.1, ?_⟩
          intro q hq hfst
          rcases mem_setS hq with hq' | hq'
          · exact h.2 q hq' hfst
          · by_cases hss : s = sid
            · subst hss
              rw [hq'.2]
              have hpres := sendToCLI_preserves st.closedSockets managed
                (OutFrame.interruptRequest rid)
              have hold := h.2 (s, managed) (lookupS_mem hl) rfl
              constructor
              · rw [hpres.1]
                exact hold.1
              · rw [hpres.2.2.2.2]
                exact hold.2
            · exact absurd (hq'.1 ▸ hfst) hss
  | exitOp s code =>
      simp only [step]
      cases hl : lookupS st.sessions s with
      | none => exact h
      | some managed =>
          dsimp only
          refine ⟨h.1, ?_⟩
          intro q hq hfst
          rcases mem_setS hq with hq' | hq'
          · exact h.2 q hq' hfst
          · by_cases hss : s = sid
            · subst hss
              rw [hq'.2]
              refine ⟨by simp, ?_⟩
              exact (h.2 (s, managed) (lookupS_mem hl) rfl).2
            · exact absurd (hq'.1 ▸ hfst) hss
  | killOp s =>
      simp only [step, killSessionState]
      cases hl : lookupS st.sessions s with
      | none => exact h
      | some managed =>
          dsimp only
          refine ⟨h.1, ?_⟩
          intro q hq hfst
          exact h.2 q (mem_of_mem_delS hq) hfst
  | reapOp n =>
      simp only [step, reapIdleSessions]
      refine ⟨h.1, ?_⟩
      intro q hq hfst
      exact h.2 q (List.mem_of_mem_filter hq) hfst

theorem noReadyInv_traj (sid : String) (hbad : sid.data.all pathChar = false) :
    ∀ (ops : List Op) (st : BridgeState), noReadyInv st sid →
      ∀ s ∈ trajectory st ops, noReadyInv s sid := by
  intro ops
  induction ops with
  | nil =>
      intro st h s hs
      rw [show trajectory st [] = [st] from rfl] at hs
      rcases List.mem_singleton.mp hs with rfl
      exact h
  | cons op rest ih =>
      intro st h s hs
      rw [show trajectory st (op :: rest) = st :: trajectory (step st op).1 rest from rfl] at hs
      rcases List.mem_cons.mp hs with rfl | hs'
      · exact h
      · exact ih (step st op).1 (noReadyInv_step sid hbad st op h) s hs'

theorem waitFails_of_inv (sid : String) (hbad : sid.data.all pathChar = false)
    (st : BridgeState) (dw : List Op) (hinv : noReadyInv st sid) :
    waitForReadySucceeds st sid dw = false := by
  unfold waitForReadySucceeds
  cases hl : lookupS st.sessions sid with
  | none => rfl
  | some m =>
      dsimp only
      have hstate := (hinv.2 (sid, m) (lookupS_mem hl) rfl).1
      rw [Bool.or_eq_false_iff]
      constructor
      · exact decide_eq_false hstate
      · rw [List.any_eq_false]
        intro s hs
        have hs' := noReadyInv_traj sid hbad dw st hinv s hs
        unfold readyResolvedAt
        cases hl' : lookupS s.sessions sid with
        | none => simp
        | some m' =>
            have hr : m'.readyResolved = false := (hs'.2 (sid, m') (lookupS_mem hl') rfl).2
            simp [hr]

/-- C10 (amended): a caller-supplied session id containing a character
outside `[a-f0-9-]` is registered verbatim by `spawnSession` in state
`starting`; every inbound connection on its dial-back path is refused with
close code 4000; no operation sequence can ever make it `ready` or resolve
its ready promise, so `waitForReady` can only time out; every `getOrCreate`
call that creates the session therefore ends in a readiness timeout — but a
later `getOrCreate` supplying the same id finds the registered non-exited
record and returns it immediately instead of timing out. -/
theorem claim_C10_bad_charset_amended (sid : String)
    (hbad : sid.data.all pathChar = false) :
    (∀ (st : BridgeState) (opts : SpawnOptions) (freshId : String) (now : Int),
      opts.sessionId = some sid →
      lookupS (spawnSession st opts freshId now).1.sessions sid =
        some (spawnRecord opts sid now) ∧
      (spawnRecord opts sid now).info.sessionId = sid ∧
      (spawnRecord opts sid now).info.state = SessionState.starting) ∧
    (∀ (st : BridgeState) (sock : Nat),
      handleConnection st sock ("/ws/cli/" ++ sid) =
        (st, ConnResult.closed 4000 "Invalid path")) ∧
    (∀ (st : BridgeState) (dw : List Op), noReadyInv st sid →
      waitForReadySucceeds st sid dw = false) ∧
    (∀ (st : BridgeState) (opts : SpawnOptions) (freshId : String) (now : Int) (dw : List Op),
      opts.sessionId = some sid → lookupS st.sessions sid = none → noReadyInv st sid →
      (getOrCreate st opts freshId now dw).1 = GOCOutcome.timeoutErr sid) ∧
    (∀ (st : BridgeState) (opts : SpawnOptions) (freshId : String) (now : Int)
        (dw : List Op) (m : ManagedSession),
      opts.sessionId = some sid → lookupS st.sessions sid = some m →
      m.info.state ≠ SessionState.exited →
      (getOrCreate st opts freshId now dw).1 = GOCOutcome.okExisting sid) := by
  refine ⟨?_, ?_, ?_, ?_, ?_⟩
  · intro st opts freshId now hsid
    have hid : opts.sessionId.getD freshId = sid := by rw [hsid]; rfl
    refine ⟨?_, rfl, rfl⟩
    unfold spawnSession
    dsimp only
    rw [hid]
    exact lookupS_setS_self ..
  · intro st sock
    unfold handleConnection
    rw [pathSessionId_append_invalid sid hbad]
  · intro st dw hinv
    exact waitFails_of_inv sid hbad st dw hinv
  · intro st opts freshId now dw hsid hnone hinv
    have hid : opts.sessionId.getD freshId = sid := by rw [hsid]; rfl
    have hinv1 : noReadyInv (spawnSession st opts freshId now).1 sid := by
      unfold spawnSession
      dsimp only
      refine ⟨hinv.1, ?_⟩
      intro q hq hfst
      rcases mem_setS hq with hq' | hq'
      · exact hinv.2 q hq' hfst
      · rw [hq'.2]
        exact ⟨by simp [spawnRecord], rfl⟩
    have hw : waitForReadySucceeds (spawnSession st opts freshId now).1 sid dw = false :=
      waitFails_of_inv sid hbad _ dw hinv1
    have hne : sid ≠ "" := by
      intro he
      rw [he] at hbad
      exact absurd hbad (by decide)
    unfold getOrCreate
    rw [hsid]
    dsimp only
    rw [if_neg hne]
    rw [hnone]
    unfold getOrCreateNew
    dsimp only
    rw [show (spawnSession st opts freshId now).2 = sid from hid, hw]
    simp only [Bool.false_eq_true, if_false]
  · intro st opts freshId now dw m hsid hreg hnex
    have hne : sid ≠ "" := by
      intro he
      rw [he] at hbad
      exact absurd hbad (by decide)
    unfold getOrCreate
    rw [hsid]
    dsimp only
    rw [if_neg hne]
    rw [hreg]
    dsimp only
    rw [if_neg hnex]

/-- C10 concrete options for counterexample and witness. -/
def c10opts : SpawnOptions := { sessionId := some "ABC" }

/-- C10 counterexample: the first `getOrCreate` on a bad-charset id times
out, but the second call on the same id returns the registered
still-starting session successfully — so "getOrCreate on it always ends in
a readiness timeout" is false. -/
theorem claim_C10_always_timeout_cex :
    ("ABC" : String).data.all pathChar = false ∧
    (getOrCreate emptyBridge c10opts "zz" 0 []).1 = GOCOutcome.timeoutErr "ABC" ∧
    (getOrCreate (getOrCreate emptyBridge c10opts "zz" 0 []).2.1 c10opts "zz" 1 []).1 =
      GOCOutcome.okExisting "ABC" ∧
    (getOrCreate (getOrCreate emptyBridge c10opts "zz" 0 []).2.1 c10opts "zz" 1 []).1 ≠
      GOCOutcome.timeoutErr "ABC" := by
  exact ⟨by decide, by decide, by decide, by decide⟩

theorem claim_C10_bad_charset_amended_witness :
    ("ABC" : String).data.all pathChar = false ∧
    handleConnection emptyBridge 3 ("/ws/cli/" ++ "ABC") =
      (emptyBridge, ConnResult.closed 4000 "Invalid path") ∧
    (noReadyInv emptyBridge "ABC" ∧
      (getOrCreate emptyBridge c10opts "zz" 0 []).1 = GOCOutcome.timeoutErr "ABC") :=
  ⟨by decide,
   (claim_C10_bad_charset_amended "ABC" (by decide)).2.1 emptyBridge 3,
   ⟨⟨fun p hp => absurd hp (List.not_mem_nil p), fun q hq => absurd hq (List.not_mem_nil q)⟩,
    (claim_C10_bad_charset_amended "ABC" (by decide)).2.2.2.1 emptyBridge c10opts "zz" 0 []
      rfl rfl
      ⟨fun p hp => absurd hp (List.not_mem_nil p), fun q hq => absurd hq (List.not_mem_nil q)⟩⟩⟩

end CCApi
